import Mathlib

/-!
# Stremio-Bhojpuri: the scraping pipeline of `index.js` and `utils.js`

A shallow embedding of the add-on's resolution pipeline.  JavaScript strings are
lists of characters.  Everything the program obtains from outside itself (the
network, `cheerio`, `String.prototype.toLowerCase`) is collected in `Env`; the
two process-wide `Map`s and the list of pages requested so far form `State`.
-/

set_option autoImplicit false

namespace Bhojpuri

/-- JavaScript strings. -/
abbrev Str := List Char

/-! ## JavaScript string primitives used by the sources -/

/-- Truthiness of a value that is a string, `undefined` or `null`. -/
def truthy : Option Str → Bool
  | some (_ :: _) => true
  | _ => false

/-- Template-literal / concatenation rendering of a string that may be `undefined`. -/
def render : Option Str → Str
  | some s => s
  | none => "undefined".toList

/-- Decimal rendering of a number inside a template literal. -/
def natToStr (n : Nat) : Str := Nat.toDigits 10 n

/-- The code points removed by `String.prototype.trim` (WhiteSpace and LineTerminator). -/
def isJsWhitespace (c : Char) : Bool :=
  let n := c.toNat
  n = 9 || n = 10 || n = 11 || n = 12 || n = 13 || n = 32 || n = 160 || n = 5760 ||
    (8192 ≤ n && n ≤ 8202) || n = 8232 || n = 8233 || n = 8239 || n = 8287 ||
    n = 12288 || n = 65279

/-- Behaviour of `String.prototype.trim`. -/
def trim (s : Str) : Str :=
  ((s.dropWhile isJsWhitespace).reverse.dropWhile isJsWhitespace).reverse

/-- Behaviour of `s.includes(p)`. -/
def includes : Str → Str → Bool
  | [], p => p.isEmpty
  | c :: s, p => p.isPrefixOf (c :: s) || includes s p

/-- Behaviour of `s.replace(p, '')` for a string pattern `p`: the first occurrence is removed. -/
def removeFirst (p : Str) : Str → Str
  | [] => []
  | c :: s => if p.isPrefixOf (c :: s) then (c :: s).drop p.length else c :: removeFirst p s

/-- Behaviour of `s.split('/')`. -/
def splitSlash (s : Str) : List Str := s.splitOn '/'

/-- Behaviour of `href.split('/').slice(-2, -1)[0]`, `none` standing for `undefined`. -/
def secondToLast (href : Str) : Option Str :=
  let segs := splitSlash href
  if 2 ≤ segs.length then segs.get? (segs.length - 2) else none

/-! ## `utils.js` -/

/-- The table `characterReplacements`, as applied by the replacer callback. -/
def replaceChar (c : Char) : Char :=
  if c = '@' then 'a' else if c = '0' then 'o' else c

/-- Source function `normalizeText(text, forSearch)`; `lower` is `toLowerCase`. -/
def normalizeText (lower : Str → Str) (text : Str) (forSearch : Bool) : Str :=
  let normalized := text.map replaceChar
  if forSearch then lower normalized else normalized

/-! ## Poster normalization: `posterSrc.replace(/_(\d+)\.jpg$/, '_3.jpg')` -/

/-- Does the regular expression `_(\d+)\.jpg$` match starting at the head of `s`? -/
def posterSuffixAt (s : Str) : Bool :=
  match s with
  | '_' :: rest =>
    !(rest.takeWhile Char.isDigit).isEmpty && rest.dropWhile Char.isDigit == ".jpg".toList
  | _ => false

/-- The replacement acts on the leftmost match; the match reaches the end of the string. -/
def normalizePoster : Str → Str
  | [] => []
  | c :: s => if posterSuffixAt (c :: s) then "_3.jpg".toList else c :: normalizePoster s

/-! ## `fetchWithRetry` -/

/-- What one call of `fetch(url, ...)` followed by `response.text()` can do. -/
inductive Attempt where
  /-- The promise returned by `fetch` rejects with this message. -/
  | rejected (message : Str)
  /-- A response with its final URL, status code, and the outcome of `response.text()`. -/
  | response (url : Str) (status : Nat) (text : Except Str Str)

/-- Property `response.ok`. -/
def statusOk (status : Nat) : Bool := 200 ≤ status && status ≤ 299

/-- The file-host marker. -/
def fileHostMarker : Str := "easyupload.io".toList

/-- Body of the `try` block of `fetchWithRetry` for one attempt. -/
def attemptOnce : Attempt → Except Str Str
  | .rejected message => .error message
  | .response url status text =>
    if includes url fileHostMarker then .ok url
    else if !statusOk status then .error ("HTTP error! status: ".toList ++ natToStr status)
    else text

/-- Result of a call of `fetchWithRetry`: the number of attempts made and the value returned
(`none` is `undefined`, which the function returns when the loop body never runs) or the error
thrown. -/
structure FetchRun where
  attempts : Nat
  result : Except Str (Option Str)

/-- The `for (let i = 0; i < retries; i++)` loop, over the indices still to be visited. -/
def fetchWithRetryLoop (outcomes : Nat → Attempt) (retries : Nat) : List Nat → Nat → FetchRun
  | [], made => { attempts := made, result := .ok none }
  | i :: rest, made =>
    match attemptOnce (outcomes i) with
    | .ok v => { attempts := made + 1, result := .ok (some v) }
    | .error e =>
      if i = retries - 1 then { attempts := made + 1, result := .error e }
      else fetchWithRetryLoop outcomes retries rest (made + 1)

/-- Source function `fetchWithRetry(url, retries)`; `outcomes i` is what attempt `i` meets. -/
def fetchWithRetry (outcomes : Nat → Attempt) (retries : Nat) : FetchRun :=
  fetchWithRetryLoop outcomes retries (List.range retries) 0

/-! ## Pages, environment and program state -/

/-- A child element of `.catList`, through the queries the sources make on it. -/
structure CatChild where
  /-- Query `$(elem).find("a > div > div:nth-child(2)").text()`. -/
  titleText : Str
  /-- Query `$(elem).find('a').text()`. -/
  anchorText : Str
  /-- Query `$(elem).find('a').attr('href')`. -/
  href : Option Str
  /-- Query `$(elem).find('img').attr('src')`. -/
  imgSrc : Option Str

/-- A `.fileName` element of a download-listing page. -/
structure FileEntry where
  /-- Query `$(element).find('div div span:first-child').text()`. -/
  label : Str
  /-- Query `$(element).attr('href')`. -/
  href : Option Str

/-- A document loaded by `cheerio.load`, through the selector queries the sources make. -/
structure Doc where
  /-- Query `$("#cateogry > div > div:nth-child(2)").find('a').attr('href')`. -/
  categoryLink : Option Str
  /-- Query `$(".catList").children()`. -/
  catList : List CatChild
  /-- Query `$(selector).first()` for a selector built at run time: the error thrown by the
  selector parser, or the first element matched (`none` when nothing matches), given by its
  `href` attribute (`some none` when the element has none). -/
  selectFirst : Str → Except Str (Option (Option Str))
  /-- Query `$('a:contains("Next >")').attr('href')`. -/
  nextHref : Option Str
  /-- Query `$('.fileName').toArray()`. -/
  fileNames : List FileEntry
  /-- Query `$('.dwnLink').attr('href')`. -/
  dwnLink : Option Str

/-- The values `JSON.parse` can produce.  Of a number the code observes only whether it is
non-zero. -/
inductive Json where
  | null
  | bool (b : Bool)
  | num (nonZero : Bool)
  | str (s : Str)
  | arr (items : List Json)
  | obj (fields : List (Str × Json))

/-- Everything the program obtains from outside itself. -/
structure Env where
  /-- Library function `String.prototype.toLowerCase`. -/
  toLowerCase : Str → Str
  /-- Library function `cheerio.load` followed by the selector queries of `Doc`; the argument
  is the value `fetchWithRetry` returned. -/
  load : Option Str → Doc
  /-- What attempt `i` of a `fetchWithRetry(url)` call meets. -/
  get : Str → Nat → Attempt
  /-- The `HEAD` request: the final URL of the response, or the rejection message. -/
  head : Str → Except Str Str
  /-- The token request for a file id: the parsed JSON body, or the message of the failure
  of `fetch` or of `response.json()`. -/
  post : Str → Except Str Json

/-- The record stored in `movieMetadataMap`. -/
structure Metadata where
  id : Str
  type : Str
  name : Str
  poster : Str
  background : Str
  logo : Str
  description : Str
  runtime : Str
  language : Str
  country : Str
  genres : List Str
deriving DecidableEq

/-- An element of the list returned by `scrapeMovies`. -/
structure Movie where
  id : Str
  title : Str
  poster : Str
deriving DecidableEq

/-- An element of the list returned by `scrapeMovieStream`. -/
structure Stream where
  url : Str
  title : Str
  name : Str
deriving DecidableEq

/-- The module-level `Map`s, and the URLs passed to `fetchWithRetry` so far (oldest first). -/
structure State where
  catalogUrlMap : List (Str × Str)
  movieMetadataMap : List (Str × Metadata)
  fetched : List Str
deriving DecidableEq

/-- Method `Map.prototype.get`. -/
def mapGet {β : Type} (m : List (Str × β)) (k : Str) : Option β := m.lookup k

/-- Method `Map.prototype.has`. -/
def mapHas {β : Type} (m : List (Str × β)) (k : Str) : Bool := (m.lookup k).isSome

/-- Method `Map.prototype.set`: an existing key keeps its place, a new key is appended. -/
def mapSet {β : Type} : List (Str × β) → Str → β → List (Str × β)
  | [], k, v => [(k, v)]
  | (k1, v1) :: m, k, v => if k1 = k then (k, v) :: m else (k1, v1) :: mapSet m k v

/-- The state after one more call of `fetchWithRetry(url)`. -/
def logFetch (st : State) (url : Str) : State := { st with fetched := st.fetched ++ [url] }

/-- The state after calls of `fetchWithRetry` on `urls`, in this order. -/
def appendFetched (st : State) (urls : List Str) : State :=
  { st with fetched := st.fetched ++ urls }

/-- A call `await fetchWithRetry(url)` with the default bound, recorded in the state. -/
def fetchLogged (env : Env) (url : Str) (st : State) : Except Str (Option Str) × State :=
  ((fetchWithRetry (env.get url) 3).result, logFetch st url)

/-! ## `scrapeMovies` -/

/-- Constant `BASE_URL`. -/
def BASE_URL : Str := "https://bhojpuriraas.net".toList

/-- The metadata record built for an accepted entry. -/
def mkMetadata (env : Env) (id title poster : Str) : Metadata :=
  { id := id
    type := "movie".toList
    name := normalizeText env.toLowerCase title false
    poster := poster
    background := poster
    logo := poster
    description := normalizeText env.toLowerCase title false
    runtime := "120 min".toList
    language := "Bhojpuri".toList
    country := "IN".toList
    genres := ["Bhojpuri".toList] }

/-- The id given to an entry with detail link `href`. -/
def movieIdOf (href : Str) : Str := "bhojpuriraas:".toList ++ render (secondToLast href)

/-- The condition under which an accepted entry is pushed to `movies`. -/
def searchMatches (env : Env) (searchQuery title : Str) : Bool :=
  !truthy (some searchQuery) ||
    includes (normalizeText env.toLowerCase (normalizeText env.toLowerCase title false) true)
      (normalizeText env.toLowerCase (normalizeText env.toLowerCase searchQuery false) true)

/-- The callback of `$(".catList").children().each(...)`, acting on `movies` and the maps. -/
def scrapeEntry (env : Env) (catalogUrl searchQuery : Str)
    (acc : List Movie × State) (elem : CatChild) : List Movie × State :=
  let title := trim elem.titleText
  if truthy elem.href then
    let id := movieIdOf (render elem.href)
    let poster : Option Str :=
      if truthy elem.imgSrc then some (normalizePoster (render elem.imgSrc)) else none
    match poster with
    | some p =>
      if truthy (some id) && truthy (some title) && truthy (some p) then
        let st1 := { acc.2 with catalogUrlMap := mapSet acc.2.catalogUrlMap id catalogUrl }
        let st2 := { st1 with
          movieMetadataMap := mapSet st1.movieMetadataMap id (mkMetadata env id title p) }
        if searchMatches env searchQuery title then
          (acc.1 ++ [{ id := id, title := title, poster := p }], st2)
        else (acc.1, st2)
      else acc
    | none => acc
  else acc

/-- One pass of `.each(...)` over the entries of a page, starting from `movies = []`. -/
def scrapePage (env : Env) (catalogUrl searchQuery : Str) (entries : List CatChild)
    (st : State) : List Movie × State :=
  entries.foldl (scrapeEntry env catalogUrl searchQuery) ([], st)

/-- The URL of listing page `currentPage` of a catalog. -/
def pageUrl (catalogUrl : Str) (currentPage : Nat) : Str :=
  removeFirst "/1.html".toList catalogUrl ++ "/".toList ++ natToStr currentPage ++ ".html".toList

/-- The `while (hasNextPage)` loop of `scrapeMovies`, entered with `hasNextPage` true.  The
result is the final `allMovies`, or the error thrown by a page fetch. -/
def scrapeMoviesLoop (env : Env) (catalogUrl searchQuery : Str) (currentPage : Nat)
    (allMovies : List Movie) (st : State) : Except Str (List Movie) × State :=
  match fetchLogged env (pageUrl catalogUrl currentPage) st with
  | (.error e, st1) => (.error e, st1)
  | (.ok html, st1) =>
    let doc := env.load html
    let scraped := scrapePage env catalogUrl searchQuery doc.catList st1
    let allMovies := allMovies ++ scraped.1
    let hasNextPage := truthy doc.nextHref
    if _h : currentPage + 1 > 8 then (.ok allMovies, scraped.2)
    else if hasNextPage then
      scrapeMoviesLoop env catalogUrl searchQuery (currentPage + 1) allMovies scraped.2
    else (.ok allMovies, scraped.2)
termination_by 9 - currentPage
decreasing_by omega

/-- Source function `scrapeMovies(catalogUrl, searchQuery)`. -/
def scrapeMovies (env : Env) (catalogUrl searchQuery : Str) (st : State) : List Movie × State :=
  match scrapeMoviesLoop env catalogUrl searchQuery 1 [] st with
  | (.ok allMovies, st1) => (allMovies, st1)
  | (.error _, st1) => ([], st1)

/-! ## `getEasyUploadDirectLink` -/

/-- Truthiness of a parsed JSON value; `none` is `undefined`. -/
def jsTruthy : Option Json → Bool
  | none => false
  | some .null => false
  | some (.bool b) => b
  | some (.num nonZero) => nonZero
  | some (.str s) => !s.isEmpty
  | some (.arr _) => true
  | some (.obj _) => true

/-- Property read `data[name]` for one of the names the code reads (`status`,
`download_link`, `error`): a `TypeError` when `data` is `null`, `undefined` on every other
non-object; in an object the last member of that name counts, as in `JSON.parse`. -/
def jsProp (data : Json) (name : Str) : Except Str (Option Json) :=
  match data with
  | .null => .error "Cannot read properties of null".toList
  | .obj fields => .ok (fields.reverse.lookup name)
  | _ => .ok none

/-- The `else if (data.error) ... else ...` branches: both throw. -/
def exchangeFailure (data : Json) : Except Str Str :=
  match jsProp data "error".toList with
  | .error e => .error e
  | .ok err =>
    if jsTruthy err then .error "API error".toList
    else .error "Unexpected API response format".toList

/-- Body of the `try` block of `getEasyUploadDirectLink`. -/
def exchangeBody (env : Env) (fileId : Str) : Except Str Str :=
  match env.post fileId with
  | .error e => .error e
  | .ok data =>
    match jsProp data "status".toList with
    | .error e => .error e
    | .ok status =>
      if jsTruthy status then
        match jsProp data "download_link".toList with
        | .error e => .error e
        | .ok link =>
          if jsTruthy link then
            match link with
            | some (.str s) => .ok (trim s)
            | _ => .error "data.download_link.trim is not a function".toList
          else exchangeFailure data
      else exchangeFailure data

/-- Source function `getEasyUploadDirectLink(fileId)`; `none` is `null`. -/
def getEasyUploadDirectLink (env : Env) (fileId : Str) : Option Str :=
  match exchangeBody env fileId with
  | .ok directLink => some directLink
  | .error _ => none

/-! ## `fetchCatalogs` -/

/-- An element of the list returned by `fetchCatalogs`. -/
structure Catalog where
  id : Str
  name : Str
  url : Str
deriving DecidableEq

/-- The callback of `filteredChildren.each((index, element) => ...)`. -/
def collectCatalogs (env : Env) : List CatChild → Nat → List Catalog
  | [], _ => []
  | element :: rest, index =>
    let title := trim element.anchorText
    if truthy (some title) && truthy element.href then
      { id := "bhojpuriraas-".toList ++ natToStr index
        name := normalizeText env.toLowerCase title false
        url := BASE_URL ++ render element.href } :: collectCatalogs env rest (index + 1)
    else collectCatalogs env rest (index + 1)

/-- Body of the `try` block of `fetchCatalogs`. -/
def fetchCatalogsBody (env : Env) (st : State) : Except Str (List Catalog) × State :=
  match fetchLogged env BASE_URL st with
  | (.error e, st1) => (.error e, st1)
  | (.ok html, st1) =>
    let categoryLink := (env.load html).categoryLink
    let CATEGORY_URL := BASE_URL ++ render categoryLink
    match fetchLogged env CATEGORY_URL st1 with
    | (.error e, st2) => (.error e, st2)
    | (.ok html2, st2) =>
      let filteredChildren := (((env.load html2).catList).eraseIdx 2).eraseIdx 0
      (.ok (collectCatalogs env filteredChildren 0), st2)

/-- Source function `fetchCatalogs()`. -/
def fetchCatalogs (env : Env) (st : State) : List Catalog × State :=
  match fetchCatalogsBody env st with
  | (.ok catalogs, st1) => (catalogs, st1)
  | (.error _, st1) => ([], st1)

/-! ## `scrapeMovieStream` -/

/-- Lines 264-280: the catalog URL of the item, from `catalogUrlMap` or by walking every
catalog; `none` means the function returns `null` at line 278. -/
def searchCatalogs (env : Env) (id : Str) : List Catalog → State → Option Str × State
  | [], st => (none, st)
  | catalog :: rest, st =>
    let st1 := (scrapeMovies env catalog.url [] st).2
    if mapHas st1.catalogUrlMap id then (mapGet st1.catalogUrlMap id, st1)
    else searchCatalogs env id rest st1

/-- Lines 264-280 of `scrapeMovieStream`. -/
def findCatalogUrl (env : Env) (movieId : Str) (st : State) : Option Str × State :=
  let id := "bhojpuriraas:".toList ++ movieId
  let catalogUrl := mapGet st.catalogUrlMap id
  if truthy catalogUrl then (catalogUrl, st)
  else
    let fetchedCatalogs := fetchCatalogs env st
    let found := searchCatalogs env id fetchedCatalogs.1 fetchedCatalogs.2
    if truthy found.1 then found else (none, found.2)

/-- The selector of lines 286 and 297: `.catList a[href*=`, a double quote, `/`, the item
id pasted as it is, `/`, a double quote, `]`. -/
def linkSelector (movieId : Str) : Str :=
  ".catList a[href*=".toList ++ [Char.ofNat 34] ++ "/".toList ++ movieId ++ "/".toList ++
    [Char.ofNat 34] ++ "]".toList

/-- Query `$(linkSelector).first()` on a loaded page: it throws when the selector does not
parse, which depends on the item id. -/
def findLink (doc : Doc) (movieId : Str) : Except Str (Option (Option Str)) :=
  doc.selectFirst (linkSelector movieId)

/-- The `while (hasNextPage && !movieElement.length)` loop of lines 291-300, entered with the
condition true. -/
def searchPagesLoop (env : Env) (catalogUrl movieId : Str) (currentPage : Nat) (st : State) :
    Except Str (Option (Option Str)) × State :=
  match fetchLogged env (pageUrl catalogUrl (currentPage + 1)) st with
  | (.error e, st1) => (.error e, st1)
  | (.ok pageHtml, st1) =>
    match findLink (env.load pageHtml) movieId with
    | .error e => (.error e, st1)
    | .ok movieElement =>
      let hasNextPage := truthy (env.load pageHtml).nextHref
      if _h : currentPage + 1 > 8 then (.ok movieElement, st1)
      else if hasNextPage && movieElement.isNone then
        searchPagesLoop env catalogUrl movieId (currentPage + 1) st1
      else (.ok movieElement, st1)
termination_by 9 - currentPage
decreasing_by omega

/-- Lines 282-305: the listing element of the item, given by its `href` attribute; `.ok none`
means the function returns `null` at line 303. -/
def findMovieElement (env : Env) (catalogUrl movieId : Str) (st : State) :
    Except Str (Option (Option Str)) × State :=
  match fetchLogged env catalogUrl st with
  | (.error e, st1) => (.error e, st1)
  | (.ok html, st1) =>
    match findLink (env.load html) movieId with
    | .error e => (.error e, st1)
    | .ok (some element) => (.ok (some element), st1)
    | .ok none => searchPagesLoop env catalogUrl movieId 1 st1

/-- Lines 264-305, the locate phase: the catalog URL, then the listing element of the item. -/
def locateItem (env : Env) (movieId : Str) (st : State) :
    Except Str (Option (Option Str)) × State :=
  match findCatalogUrl env movieId st with
  | (none, st1) => (.ok none, st1)
  | (some catalogUrl, st1) => findMovieElement env catalogUrl movieId st1

/-- The stream pushed for a quality. -/
def mkStream (url quality : Str) : Stream := { url := url, title := quality, name := quality }

/-- The `try` block of lines 334-371 for one quality: the streams it pushes, or the error
that the `catch` of line 372 receives. -/
def followRedirect (env : Env) (quality redirectUrl : Str) (st : State) :
    Except Str (List Stream) × State :=
  match env.head redirectUrl with
  | .error e => (.error e, st)
  | .ok responseUrl =>
    if includes responseUrl ".mp4".toList then (.ok [mkStream responseUrl quality], st)
    else
      match fetchLogged env redirectUrl st with
      | (.error e, st1) => (.error e, st1)
      | (.ok easyuploadUrl, st1) =>
        if truthy easyuploadUrl && includes (render easyuploadUrl) fileHostMarker then
          let fileId := render (splitSlash (render easyuploadUrl)).getLast?
          let directLink := getEasyUploadDirectLink env fileId
          if truthy directLink then (.ok [mkStream (render directLink) quality], st1)
          else (.ok [], st1)
        else (.ok [], st1)

/-- One iteration of the `for (const element of ...)` loop of lines 318-378. -/
def resolveQuality (env : Env) (streams : List Stream) (st : State) (element : FileEntry) :
    Except Str (List Stream) × State :=
  let quality := trim element.label
  if truthy element.href then
    let downloadPageUrl := BASE_URL ++ render element.href
    match fetchLogged env downloadPageUrl st with
    | (.error e, st1) => (.error e, st1)
    | (.ok downloadPageHtml, st1) =>
      let dwnLinkHref := (env.load downloadPageHtml).dwnLink
      if truthy dwnLinkHref then
        let redirectUrl := BASE_URL ++ render dwnLinkHref
        match followRedirect env quality redirectUrl st1 with
        | (.ok pushed, st2) => (.ok (streams ++ pushed), st2)
        | (.error _, st2) => (.ok streams, st2)
      else (.ok streams, st1)
  else (.ok streams, st)

/-- The `for (const element of $streamPage('.fileName').toArray())` loop. -/
def resolveQualities (env : Env) :
    List FileEntry → List Stream → State → Except Str (List Stream) × State
  | [], streams, st => (.ok streams, st)
  | element :: rest, streams, st =>
    match resolveQuality env streams st element with
    | (.error e, st1) => (.error e, st1)
    | (.ok streams1, st1) => resolveQualities env rest streams1 st1

/-- Body of the outer `try` block of `scrapeMovieStream`; `.ok none` is `return null`. -/
def scrapeMovieStreamBody (env : Env) (movieId : Str) (st : State) :
    Except Str (Option (List Stream)) × State :=
  match locateItem env movieId st with
  | (.error e, st2) => (.error e, st2)
  | (.ok none, st2) => (.ok none, st2)
  | (.ok (some none), st2) =>
    (.error "Cannot read properties of undefined (reading split)".toList, st2)
  | (.ok (some (some href)), st2) =>
    let urlPath := render ((splitSlash href).get? 1)
    let url := BASE_URL ++ "/".toList ++ urlPath ++ "/fl/".toList ++ movieId ++ "/1.html".toList
    match fetchLogged env url st2 with
    | (.error e, st3) => (.error e, st3)
    | (.ok streamPageHtml, st3) =>
      match resolveQualities env (env.load streamPageHtml).fileNames [] st3 with
      | (.error e, st4) => (.error e, st4)
      | (.ok streams, st4) =>
        if streams.length = 0 then (.ok none, st4) else (.ok (some streams), st4)

/-- Source function `scrapeMovieStream(movieId)`; `none` is `null`. -/
def scrapeMovieStream (env : Env) (movieId : Str) (st : State) : Option (List Stream) × State :=
  match scrapeMovieStreamBody env movieId st with
  | (.ok streams, st1) => (streams, st1)
  | (.error _, st1) => (none, st1)

/-! ## Statement vocabulary and concrete sites -/

/-- A string of the shape `p ++ "_" ++ ds ++ ".jpg"` with `ds` a non-empty run of digits. -/
def HasSizeSuffix (s : Str) : Prop :=
  ∃ p ds : Str, ds ≠ [] ∧ (∀ c ∈ ds, c.isDigit = true) ∧ s = p ++ '_' :: (ds ++ ".jpg".toList)

/-- A string of the shape `p ++ "_" ++ d ++ ".jpg"` with `d` one decimal digit. -/
def HasOneDigitSuffix (s : Str) : Prop :=
  ∃ (p : Str) (d : Char), d.isDigit = true ∧ s = p ++ '_' :: d :: ".jpg".toList

/-- An entry with a detail link, a non-empty trimmed title and a poster source. -/
def accepted (elem : CatChild) : Bool :=
  truthy elem.href && truthy (some (trim elem.titleText)) && truthy elem.imgSrc

/-- The item an accepted entry yields. -/
def toMovie (elem : CatChild) : Movie :=
  { id := movieIdOf (render elem.href)
    title := trim elem.titleText
    poster := normalizePoster (render elem.imgSrc) }

/-- The cache writes an entry causes: both maps are set for an accepted entry. -/
def writeCaches (env : Env) (catalogUrl : Str) (st : State) (elem : CatChild) : State :=
  if accepted elem then
    { st with
      catalogUrlMap := mapSet st.catalogUrlMap (toMovie elem).id catalogUrl
      movieMetadataMap := mapSet st.movieMetadataMap (toMovie elem).id
        (mkMetadata env (toMovie elem).id (toMovie elem).title (toMovie elem).poster) }
  else st

/-- Both caches hold an entry for `id`: the catalog URL, and a record carrying that id. -/
def Written (catalogUrl : Str) (st : State) (id : Str) : Prop :=
  mapGet st.catalogUrlMap id = some catalogUrl ∧
    ∃ md, mapGet st.movieMetadataMap id = some md ∧ md.id = id

/-- What the locate phase sees on the listing page at `url`: the error of the fetch or of the
selector, or the element found together with the presence of a `Next >` link. -/
def lookOn (env : Env) (movieId url : Str) : Except Str (Option (Option Str) × Bool) :=
  match (fetchWithRetry (env.get url) 3).result with
  | .error e => .error e
  | .ok html =>
    match findLink (env.load html) movieId with
    | .error e => .error e
    | .ok element => .ok (element, truthy (env.load html).nextHref)

/-- The answer of `cheerio` on a page whose `.catList` anchors carry the given `href`s, in
document order, to the selector `linkSelector id` for an id free of double quotes and
backslashes: the first anchor whose `href` contains `/id/`.  Every other selector is refused,
as an attribute selector that does not terminate is. -/
def selectAmong (links : List Str) (selector : Str) : Except Str (Option (Option Str)) :=
  let opening := ".catList a[href*=".toList ++ [Char.ofNat 34] ++ "/".toList
  let closing := "/".toList ++ [Char.ofNat 34] ++ "]".toList
  let id := (selector.drop opening.length).take
    (selector.length - opening.length - closing.length)
  if selector = opening ++ id ++ closing ∧ Char.ofNat 34 ∉ id ∧ Char.ofNat 92 ∉ id then
    .ok ((links.find? (fun href => includes href ("/".toList ++ id ++ "/".toList))).map some)
  else .error "Attribute selector did not terminate".toList

/-- A document on which every query of `Doc` comes back empty. -/
def emptyDoc : Doc :=
  { categoryLink := none, catList := [], selectFirst := selectAmong [], nextHref := none,
    fileNames := [], dwnLink := none }

/-- A site on which every request fails; lower-casing is that of the ASCII range. -/
def deadEnv : Env :=
  { toLowerCase := fun s => s.map Char.toLower
    load := fun _ => emptyDoc
    get := fun _ _ => .rejected "offline".toList
    head := fun _ => .error "offline".toList
    post := fun _ => .error "offline".toList }

/-- The state of a freshly started process. -/
def emptyState : State := { catalogUrlMap := [], movieMetadataMap := [], fetched := [] }

/-- The listing URL of the catalog used in the examples. -/
def listingUrl : Str := "https://bhojpuriraas.net/movies/1.html".toList

/-- Entry A of the examples; its title is written with `@`. -/
def entryA : CatChild :=
  { titleText := " R@ja ".toList, anchorText := " R@ja ".toList,
    href := some "/movies/101/raja.html".toList, imgSrc := some "/images/raja_1.jpg".toList }

/-- Entry B of the examples. -/
def entryB : CatChild :=
  { titleText := "Bidaai".toList, anchorText := "Bidaai".toList,
    href := some "/movies/102/bidaai.html".toList, imgSrc := some "/images/bidaai_2.jpg".toList }

/-- Entry C of the examples. -/
def entryC : CatChild :=
  { titleText := "Chalbaaz".toList, anchorText := "Chalbaaz".toList,
    href := some "/movies/103/chalbaaz.html".toList,
    imgSrc := some "/images/chalbaaz_3.jpg".toList }

/-- Listing page 1 of the examples: entries A and B and a `Next >` link. -/
def pageOne : Doc :=
  { emptyDoc with
    catList := [entryA, entryB]
    selectFirst := selectAmong ["/movies/101/raja.html".toList, "/movies/102/bidaai.html".toList]
    nextHref := some "/movies/2.html".toList }

/-- Listing page 2 of the examples: entry C and no `Next >` link. -/
def pageTwo : Doc :=
  { emptyDoc with
    catList := [entryC]
    selectFirst := selectAmong ["/movies/103/chalbaaz.html".toList] }

/-- The pages of the two-page catalog, by page number. -/
def twoPages (k : Nat) : Doc := if k = 1 then pageOne else if k = 2 then pageTwo else emptyDoc

/-- A site that serves the two-page catalog and nothing else. -/
def twoPageEnv : Env :=
  { deadEnv with
    get := fun url _ =>
      if url = pageUrl listingUrl 1 then .response url 200 (.ok "page one".toList)
      else if url = pageUrl listingUrl 2 then .response url 200 (.ok "page two".toList)
      else .rejected "not found".toList
    load := fun html =>
      if html = some "page one".toList then pageOne
      else if html = some "page two".toList then pageTwo
      else emptyDoc }

/-- A process whose `catalogUrlMap` already knows item `101` of the examples. -/
def warmState : State :=
  { catalogUrlMap := [("bhojpuriraas:101".toList, listingUrl)]
    movieMetadataMap := [("bhojpuriraas:101".toList,
      mkMetadata deadEnv "bhojpuriraas:101".toList "R@ja".toList "/images/raja_3.jpg".toList)]
    fetched := [] }

/-- A process whose `catalogUrlMap` already knows item `103` of the examples, which the site
shows on its second listing page. -/
def warmStateC : State :=
  { catalogUrlMap := [("bhojpuriraas:103".toList, listingUrl)]
    movieMetadataMap := [("bhojpuriraas:103".toList,
      mkMetadata deadEnv "bhojpuriraas:103".toList "Chalbaaz".toList
        "/images/chalbaaz_3.jpg".toList)]
    fetched := [] }

/-- An entry with a detail link and a title but no image. -/
def entryD : CatChild :=
  { titleText := "Dulhan".toList, anchorText := "Dulhan".toList,
    href := some "/movies/104/dulhan.html".toList, imgSrc := none }

/-- A one-page catalog showing entry A and, without image, entry D. -/
def posterlessDoc : Doc :=
  { emptyDoc with
    catList := [entryA, entryD]
    selectFirst := selectAmong ["/movies/101/raja.html".toList, "/movies/104/dulhan.html".toList] }

/-- A site that serves the one-page catalog `posterlessDoc` and nothing else. -/
def posterlessEnv : Env :=
  { deadEnv with
    get := fun url _ =>
      if url = pageUrl listingUrl 1 then .response url 200 (.ok "listing".toList)
      else .rejected "not found".toList
    load := fun html => if html = some "listing".toList then posterlessDoc else emptyDoc }

/-- A listing page that shows entry B only and always offers a `Next >` link. -/
def endlessDoc : Doc :=
  { emptyDoc with
    catList := [entryB]
    selectFirst := selectAmong ["/movies/102/bidaai.html".toList]
    nextHref := some "/movies/next.html".toList }

/-- A site that answers every listing URL with the same page `endlessDoc`, served from the
address of the first page. -/
def endlessEnv : Env :=
  { deadEnv with
    get := fun _ _ => .response listingUrl 200 (.ok "listing".toList)
    load := fun _ => endlessDoc }

/-- The download-listing page of item `101`: three qualities. -/
def qualitiesDoc : Doc :=
  { emptyDoc with
    fileNames :=
      [{ label := " 480p ".toList, href := some "/dl/101/480.html".toList },
       { label := " 720p ".toList, href := some "/dl/101/720.html".toList },
       { label := " 1080p ".toList, href := some "/dl/101/1080.html".toList }] }

/-- The download page of one quality, with its redirect link. -/
def downloadDoc (redirect : Str) : Doc := { emptyDoc with dwnLink := some redirect }

/-- The pages of the streaming example, by body. -/
def streamLoad (html : Option Str) : Doc :=
  if html = some "page one".toList then pageOne
  else if html = some "qualities".toList then qualitiesDoc
  else if html = some "download 480".toList then downloadDoc "/go/480".toList
  else if html = some "download 720".toList then downloadDoc "/go/720".toList
  else if html = some "download 1080".toList then downloadDoc "/go/1080".toList
  else emptyDoc

/-- The `HEAD` answers of the streaming example: every redirect lands on a media file,
except that of `broken`, whose request fails. -/
def streamHead (broken : Str) (url : Str) : Except Str Str :=
  if url = broken then .error "socket hang up".toList
  else if url = "https://bhojpuriraas.net/go/480".toList then
    .ok "https://cdn.example.org/raja-480.mp4".toList
  else if url = "https://bhojpuriraas.net/go/720".toList then
    .ok "https://cdn.example.org/raja-720.mp4".toList
  else if url = "https://bhojpuriraas.net/go/1080".toList then
    .ok "https://cdn.example.org/raja-1080.mp4".toList
  else .error "not found".toList

/-- The `GET` answers of the streaming example; the page `missing` cannot be fetched. -/
def streamGet (missing : Str) (url : Str) (_attempt : Nat) : Attempt :=
  if url = missing then .rejected "connection reset".toList
  else if url = listingUrl then .response url 200 (.ok "page one".toList)
  else if url = "https://bhojpuriraas.net/movies/fl/101/1.html".toList then
    .response url 200 (.ok "qualities".toList)
  else if url = "https://bhojpuriraas.net/dl/101/480.html".toList then
    .response url 200 (.ok "download 480".toList)
  else if url = "https://bhojpuriraas.net/dl/101/720.html".toList then
    .response url 200 (.ok "download 720".toList)
  else if url = "https://bhojpuriraas.net/dl/101/1080.html".toList then
    .response url 200 (.ok "download 1080".toList)
  else .rejected "not found".toList

/-- The site of the streaming example: item `101` with three qualities.  The download page
`missing` cannot be fetched and the redirect `broken` cannot be followed. -/
def streamEnv (missing broken : Str) : Env :=
  { deadEnv with get := streamGet missing, load := streamLoad, head := streamHead broken }

/-- A file host whose token API answers with a download link made of one blank. -/
def blankLinkEnv : Env :=
  { deadEnv with
    post := fun _ =>
      .ok (.obj [("status".toList, .bool true), ("download_link".toList, .str " ".toList)]) }

/-! # Theorems -/

/-! ## Poster normalization -/

theorem posterSuffixAt_iff (s : Str) :
    posterSuffixAt s = true ↔
      ∃ ds : Str, ds ≠ [] ∧ (∀ c ∈ ds, c.isDigit = true) ∧ s = '_' :: (ds ++ ".jpg".toList) := by
  constructor
  · intro h
    match s, h with
    | c :: rest, h =>
      by_cases hc : c = '_'
      · subst hc
        simp only [posterSuffixAt, Bool.and_eq_true, Bool.not_eq_true', beq_iff_eq] at h
        refine ⟨rest.takeWhile Char.isDigit, ?_, ?_, ?_⟩
        · intro h0
          rw [h0] at h
          simp at h
        · intro c hc
          exact List.mem_takeWhile_imp hc
        · have := List.takeWhile_append_dropWhile Char.isDigit rest
          rw [h.2] at this
          simp only [List.cons_append, this]
      · exfalso
        unfold posterSuffixAt at h
        split at h
        · rename_i heq
          exact hc (List.cons.inj heq).1
        · exact Bool.false_ne_true h
  · rintro ⟨ds, hne, hdig, rfl⟩
    have h1 : (ds ++ ".jpg".toList).takeWhile Char.isDigit = ds := by
      rw [List.takeWhile_append_of_pos hdig]
      simp [List.takeWhile]
    have h2 : (ds ++ ".jpg".toList).dropWhile Char.isDigit = ".jpg".toList := by
      rw [List.dropWhile_append_of_pos hdig]
      simp [List.dropWhile]
    simp only [posterSuffixAt, List.cons_append, h1, h2, Bool.and_eq_true, Bool.not_eq_true',
      beq_self_eq_true, and_true]
    cases ds with
    | nil => exact absurd rfl hne
    | cons a l => rfl

theorem normalizePoster_suffix (p ds : Str) (hne : ds ≠ [])
    (hdig : ∀ c ∈ ds, c.isDigit = true) :
    normalizePoster (p ++ '_' :: (ds ++ ".jpg".toList)) = p ++ "_3.jpg".toList := by
  induction p with
  | nil =>
    have h : posterSuffixAt ('_' :: (ds ++ ".jpg".toList)) = true :=
      (posterSuffixAt_iff _).2 ⟨ds, hne, hdig, rfl⟩
    simp only [List.nil_append, List.cons_append] at h ⊢
    simp only [normalizePoster, h, if_true]
  | cons c p ih =>
    have h : posterSuffixAt (c :: (p ++ '_' :: (ds ++ ".jpg".toList))) = false := by
      rw [Bool.eq_false_iff]
      intro hm
      obtain ⟨es, _, hes, heq⟩ := (posterSuffixAt_iff _).1 hm
      simp only [List.cons_append, List.cons.injEq] at heq
      have h0 : (p ++ '_' :: ds) ++ ".jpg".toList = es ++ ".jpg".toList := by
        simpa using heq.2
      have h1 : p ++ '_' :: ds = es := List.append_cancel_right h0
      have h2 : '_' ∈ es := by
        rw [← h1]
        simp
      exact absurd (hes _ h2) (by decide)
    simp only [List.cons_append] at h ih ⊢
    simp only [normalizePoster, h, ih]
    simp

theorem normalizePoster_unchanged (s : Str) (h : ¬ HasSizeSuffix s) : normalizePoster s = s := by
  induction s with
  | nil => rfl
  | cons c s ih =>
    have hm : posterSuffixAt (c :: s) = false := by
      rw [Bool.eq_false_iff]
      intro hm
      obtain ⟨ds, hne, hdig, heq⟩ := (posterSuffixAt_iff _).1 hm
      exact h ⟨[], ds, hne, hdig, by simpa using heq⟩
    have hs : ¬ HasSizeSuffix s := by
      rintro ⟨p, ds, hne, hdig, rfl⟩
      exact h ⟨c :: p, ds, hne, hdig, by simp⟩
    simp only [normalizePoster, hm, ih hs]
    simp

theorem normalizePoster_cases (s : Str) :
    normalizePoster s = s ∨ ∃ p, normalizePoster s = p ++ "_3.jpg".toList := by
  induction s with
  | nil => exact Or.inl rfl
  | cons c s ih =>
    by_cases hm : posterSuffixAt (c :: s) = true
    · exact Or.inr ⟨[], by simp only [normalizePoster, hm, if_true, List.nil_append]⟩
    · rcases ih with ih | ⟨p, ih⟩
      · exact Or.inl (by simp only [normalizePoster, hm, ih]; simp)
      · exact Or.inr ⟨c :: p, by simp only [normalizePoster, hm, ih]; simp⟩

theorem normalizePoster_idem (s : Str) :
    normalizePoster (normalizePoster s) = normalizePoster s := by
  rcases normalizePoster_cases s with h | ⟨p, h⟩
  · rw [h, h]
  · rw [h]
    simpa using normalizePoster_suffix p ['3'] (by simp) (by decide)

theorem normalizePoster_ne_nil (s : Str) (h : s ≠ []) : normalizePoster s ≠ [] := by
  cases s with
  | nil => exact absurd rfl h
  | cons c s =>
    unfold normalizePoster
    split
    · decide
    · simp

/-- C9, as stated, fails: a source ending in `_12.jpg` does not end in `_<digit>.jpg` for a
single digit, yet it is rewritten. -/
theorem normalizePoster_rewrites_two_digits :
    ¬ HasOneDigitSuffix "poster_12.jpg".toList ∧
      normalizePoster "poster_12.jpg".toList = "poster_3.jpg".toList ∧
      normalizePoster "poster_12.jpg".toList ≠ "poster_12.jpg".toList := by
  refine ⟨?_, by decide, by decide⟩
  rintro ⟨p, d, _, h⟩
  have h1 := congrArg List.reverse h
  simp only [List.reverse_append, List.reverse_cons] at h1
  have h2 := congrArg (fun l => l.get? 5) h1
  simp at h2

/-- C9 (amended): poster normalization rewrites the trailing `_<digits>.jpg` suffix, for any
non-empty run of decimal digits, to `_3.jpg`; in particular `p_d.jpg` becomes `p_3.jpg` for a
single digit `d`, a source ending in `_3.jpg` is unchanged, normalization is idempotent, and
a source without a trailing `_<digits>.jpg` is returned unchanged. -/
theorem normalizePoster_spec :
    (∀ p ds : Str, ds ≠ [] → (∀ c ∈ ds, c.isDigit = true) →
        normalizePoster (p ++ '_' :: (ds ++ ".jpg".toList)) = p ++ "_3.jpg".toList) ∧
      (∀ (p : Str) (d : Char), d.isDigit = true →
        normalizePoster (p ++ '_' :: d :: ".jpg".toList) = p ++ "_3.jpg".toList) ∧
      (∀ p : Str, normalizePoster (p ++ "_3.jpg".toList) = p ++ "_3.jpg".toList) ∧
      (∀ s : Str, normalizePoster (normalizePoster s) = normalizePoster s) ∧
      (∀ s : Str, ¬ HasSizeSuffix s → normalizePoster s = s) := by
  refine ⟨normalizePoster_suffix, ?_, ?_, normalizePoster_idem, normalizePoster_unchanged⟩
  · intro p d hd
    simpa using normalizePoster_suffix p [d] (by simp) (by simpa using hd)
  · intro p
    simpa using normalizePoster_suffix p ['3'] (by simp) (by decide)

/-- The examples of C9: `.../poster_1.jpg` gives `.../poster_3.jpg`, which is a fixed point. -/
theorem normalizePoster_spec_witness :
    normalizePoster ("https://bhojpuriraas.net/images/poster".toList ++ '_' :: '1' :: ".jpg".toList)
        = "https://bhojpuriraas.net/images/poster".toList ++ "_3.jpg".toList ∧
      normalizePoster ("https://bhojpuriraas.net/images/poster".toList ++ "_3.jpg".toList)
        = "https://bhojpuriraas.net/images/poster".toList ++ "_3.jpg".toList :=
  ⟨normalizePoster_spec.2.1 _ '1' (by decide), normalizePoster_spec.2.2.1 _⟩

/-! ## `fetchWithRetry` -/

theorem fetchWithRetry_three_eq (outcomes : Nat → Attempt) :
    fetchWithRetry outcomes 3 =
      match attemptOnce (outcomes 0) with
      | .ok v => { attempts := 1, result := .ok (some v) }
      | .error _ =>
        match attemptOnce (outcomes 1) with
        | .ok v => { attempts := 2, result := .ok (some v) }
        | .error _ =>
          match attemptOnce (outcomes 2) with
          | .ok v => { attempts := 3, result := .ok (some v) }
          | .error e => { attempts := 3, result := .error e } := by
  have hr : List.range 3 = [0, 1, 2] := rfl
  unfold fetchWithRetry
  rw [hr]
  simp only [fetchWithRetryLoop]
  cases attemptOnce (outcomes 0) <;> cases attemptOnce (outcomes 1) <;>
    cases attemptOnce (outcomes 2) <;> simp

/-- C8: with the default bound `fetchWithRetry` makes between one and three attempts; it
returns the value of the first attempt that succeeds and stops there; it throws exactly when
all three attempts fail, and then throws the error of the third attempt.  An attempt succeeds
with the final URL when that URL contains the file-host marker (whatever the status), and
otherwise with the body of a 2xx response; a rejected `fetch` and a non-2xx response off the
file host fail. -/
theorem fetchWithRetry_default (outcomes : Nat → Attempt) :
    (1 ≤ (fetchWithRetry outcomes 3).attempts ∧ (fetchWithRetry outcomes 3).attempts ≤ 3) ∧
      (∀ k v, k < 3 → attemptOnce (outcomes k) = .ok v →
        (∀ j, j < k → ∃ e, attemptOnce (outcomes j) = .error e) →
        (fetchWithRetry outcomes 3).result = .ok (some v) ∧
          (fetchWithRetry outcomes 3).attempts = k + 1) ∧
      ((∃ e, (fetchWithRetry outcomes 3).result = .error e) ↔
        ∀ k, k < 3 → ∃ e, attemptOnce (outcomes k) = .error e) ∧
      (∀ e, (fetchWithRetry outcomes 3).result = .error e →
        attemptOnce (outcomes 2) = .error e ∧ (fetchWithRetry outcomes 3).attempts = 3) ∧
      (∀ url status text, includes url fileHostMarker = true →
        attemptOnce (.response url status text) = .ok url) ∧
      (∀ url status body, includes url fileHostMarker = false → 200 ≤ status → status ≤ 299 →
        attemptOnce (.response url status (.ok body)) = .ok body) ∧
      (∀ url status text, includes url fileHostMarker = false → ¬ (200 ≤ status ∧ status ≤ 299) →
        ∃ e, attemptOnce (.response url status text) = .error e) ∧
      (∀ message, attemptOnce (.rejected message) = .error message) := by
  rw [fetchWithRetry_three_eq]
  refine ⟨?_, ?_, ?_, ?_, ?_, ?_, ?_, ?_⟩
  · cases attemptOnce (outcomes 0) <;> cases attemptOnce (outcomes 1) <;>
      cases attemptOnce (outcomes 2) <;> simp
  · intro k v hk hv hfail
    have h0 : k = 0 ∨ k = 1 ∨ k = 2 := by omega
    rcases h0 with rfl | rfl | rfl
    · simp [hv]
    · obtain ⟨e0, h0⟩ := hfail 0 (by omega)
      simp [hv, h0]
    · obtain ⟨e0, h0⟩ := hfail 0 (by omega)
      obtain ⟨e1, h1⟩ := hfail 1 (by omega)
      simp [hv, h0, h1]
  · constructor
    · rintro ⟨e, he⟩ k hk
      have h0 : k = 0 ∨ k = 1 ∨ k = 2 := by omega
      rcases h0 with rfl | rfl | rfl <;>
        cases h0 : attemptOnce (outcomes 0) <;> cases h1 : attemptOnce (outcomes 1) <;>
          cases h2 : attemptOnce (outcomes 2) <;> simp [h0, h1, h2] at he ⊢
    · intro h
      obtain ⟨e0, h0⟩ := h 0 (by omega)
      obtain ⟨e1, h1⟩ := h 1 (by omega)
      obtain ⟨e2, h2⟩ := h 2 (by omega)
      exact ⟨e2, by simp [h0, h1, h2]⟩
  · intro e he
    cases h0 : attemptOnce (outcomes 0) <;> cases h1 : attemptOnce (outcomes 1) <;>
      cases h2 : attemptOnce (outcomes 2) <;> simp [h0, h1, h2] at he ⊢
    exact he
  · intro url status text h
    simp [attemptOnce, h]
  · intro url status body h h1 h2
    simp [attemptOnce, h, statusOk, h1, h2]
  · intro url status text h hs
    have : statusOk status = false := by
      simp only [statusOk, Bool.and_eq_false_iff, decide_eq_false_iff_not]
      omega
    exact ⟨"HTTP error! status: ".toList ++ natToStr status, by simp [attemptOnce, h, this]⟩
  · intro message
    rfl

/-! ## `getEasyUploadDirectLink` -/

theorem trim_eq_nil_iff (s : Str) : trim s = [] ↔ ∀ c ∈ s, isJsWhitespace c = true := by
  unfold trim
  rw [List.reverse_eq_nil_iff, List.dropWhile_eq_nil_iff]
  constructor
  · intro h
    have hd : s.dropWhile isJsWhitespace = [] := by
      by_contra hne
      have h1 := List.head_dropWhile_not isJsWhitespace s hne
      have h2 := h _ (List.mem_reverse.2 (List.head_mem hne))
      rw [h1] at h2
      exact Bool.false_ne_true h2
    exact List.dropWhile_eq_nil_iff.1 hd
  · intro h
    rw [List.dropWhile_eq_nil_iff.2 h]
    simp

theorem trim_ne_nil_iff (s : Str) : trim s ≠ [] ↔ ∃ c ∈ s, isJsWhitespace c = false := by
  rw [Ne, trim_eq_nil_iff]
  simp

theorem exchangeFailure_error (data : Json) : ∃ e, exchangeFailure data = .error e := by
  unfold exchangeFailure
  cases jsProp data "error".toList with
  | error e => exact ⟨e, rfl⟩
  | ok err =>
    by_cases h : jsTruthy err = true
    · exact ⟨_, by simp only []; rw [if_pos h]⟩
    · exact ⟨_, by simp only []; rw [if_neg h]⟩

theorem exchangeBody_ok (env : Env) (fileId r : Str) (h : exchangeBody env fileId = .ok r) :
    ∃ data status s, env.post fileId = .ok data ∧ jsProp data "status".toList = .ok status ∧
      jsTruthy status = true ∧ jsProp data "download_link".toList = .ok (some (.str s)) ∧
      s ≠ [] ∧ r = trim s := by
  unfold exchangeBody at h
  cases hp : env.post fileId with
  | error e =>
    rw [hp] at h
    cases h
  | ok data =>
    rw [hp] at h
    cases hs : jsProp data "status".toList with
    | error e =>
      simp only [hs] at h
      cases h
    | ok status =>
      have hfail : exchangeFailure data ≠ .ok r := by
        obtain ⟨e, he⟩ := exchangeFailure_error data
        rw [he]
        intro hc
        cases hc
      simp only [hs] at h
      by_cases ht : jsTruthy status = true
      · rw [if_pos ht] at h
        cases hl : jsProp data "download_link".toList with
        | error e =>
          simp only [hl] at h
          cases h
        | ok link =>
          simp only [hl] at h
          by_cases htl : jsTruthy link = true
          · rw [if_pos htl] at h
            match link, hl, htl, h with
            | some (.str s), hl, htl, h =>
              refine ⟨data, status, s, rfl, hs, ht, hl, ?_, ?_⟩
              · intro h0
                subst h0
                exact Bool.false_ne_true htl
              · simp only [Except.ok.injEq] at h
                exact h.symm
            | some .null, _, _, h => cases h
            | some (.bool _), _, _, h => cases h
            | some (.num _), _, _, h => cases h
            | some (.arr _), _, _, h => cases h
            | some (.obj _), _, _, h => cases h
            | none, _, _, h => cases h
          · rw [if_neg htl] at h
            exact absurd h hfail
      · rw [if_neg ht] at h
        exact absurd h hfail

/-- C7, as stated, fails: a response with a truthy status and a non-empty download link made
of one blank is exchanged for the empty string, a result that is not `null` and not a URL. -/
theorem getEasyUploadDirectLink_blank_link :
    getEasyUploadDirectLink blankLinkEnv "abc123".toList = some [] ∧
      getEasyUploadDirectLink blankLinkEnv "abc123".toList ≠ none := by
  decide

/-- C7 (amended): `getEasyUploadDirectLink` always returns (a string or `null`).  It returns
the trimmed download link when the response has a truthy `status` and a non-empty string
`download_link`, and `null` in every other case: a failed request, a falsy status, an error
field, any other shape.  A non-null result is the trimmed link; it is non-empty exactly when
the link has a character that is not white space (a link of white space only gives the empty
string). -/
theorem getEasyUploadDirectLink_spec (env : Env) (fileId : Str) :
    (∀ data status s, env.post fileId = .ok data → jsProp data "status".toList = .ok status →
        jsTruthy status = true → jsProp data "download_link".toList = .ok (some (.str s)) →
        s ≠ [] → getEasyUploadDirectLink env fileId = some (trim s)) ∧
      (∀ r, getEasyUploadDirectLink env fileId = some r →
        ∃ data status s, env.post fileId = .ok data ∧ jsProp data "status".toList = .ok status ∧
          jsTruthy status = true ∧ jsProp data "download_link".toList = .ok (some (.str s)) ∧
          s ≠ [] ∧ r = trim s ∧ (r ≠ [] ↔ ∃ c ∈ s, isJsWhitespace c = false)) ∧
      (∀ e, env.post fileId = .error e → getEasyUploadDirectLink env fileId = none) ∧
      (env.post fileId = .ok .null → getEasyUploadDirectLink env fileId = none) ∧
      (∀ data status, env.post fileId = .ok data → jsProp data "status".toList = .ok status →
        jsTruthy status = false → getEasyUploadDirectLink env fileId = none) ∧
      (∀ data link, env.post fileId = .ok data → jsProp data "download_link".toList = .ok link →
        jsTruthy link = false → getEasyUploadDirectLink env fileId = none) := by
  have hsome : ∀ r, getEasyUploadDirectLink env fileId = some r →
      exchangeBody env fileId = .ok r := by
    intro r h
    unfold getEasyUploadDirectLink at h
    cases hb : exchangeBody env fileId with
    | error e => simp [hb] at h
    | ok v =>
      simp only [hb, Option.some.injEq] at h
      rw [h]
  have hnone : ∀ P : Prop, (∀ r, exchangeBody env fileId = .ok r → P → False) → P →
      getEasyUploadDirectLink env fileId = none := by
    intro P hP hp
    unfold getEasyUploadDirectLink
    cases hb : exchangeBody env fileId with
    | error e => rfl
    | ok v => exact absurd hp (fun hp => hP v hb hp)
  refine ⟨?_, ?_, ?_, ?_, ?_, ?_⟩
  · intro data status s hp hs ht hl hne
    have htl : jsTruthy (some (.str s)) = true := by
      cases s with
      | nil => exact absurd rfl hne
      | cons c s => rfl
    unfold getEasyUploadDirectLink exchangeBody
    rw [hp]
    simp only [hs, ht, hl, htl, if_true]
  · intro r h
    obtain ⟨data, status, s, h1, h2, h3, h4, h5, h6⟩ := exchangeBody_ok env fileId r (hsome r h)
    refine ⟨data, status, s, h1, h2, h3, h4, h5, h6, ?_⟩
    rw [h6]
    exact trim_ne_nil_iff s
  · intro e he
    unfold getEasyUploadDirectLink exchangeBody
    rw [he]
  · intro he
    unfold getEasyUploadDirectLink exchangeBody
    rw [he]
    rfl
  · intro data status hp hs ht
    refine hnone (jsTruthy status = false) ?_ ht
    intro r hr ht
    obtain ⟨data1, status1, s, h1, h2, h3, _⟩ := exchangeBody_ok env fileId r hr
    rw [hp] at h1
    cases h1
    rw [hs] at h2
    cases h2
    rw [ht] at h3
    exact Bool.false_ne_true h3
  · intro data link hp hl ht
    refine hnone (jsTruthy link = false) ?_ ht
    intro r hr ht
    obtain ⟨data1, status1, s, h1, _, _, h4, h5, _⟩ := exchangeBody_ok env fileId r hr
    rw [hp] at h1
    cases h1
    rw [hl] at h4
    cases h4
    cases s with
    | nil => exact h5 rfl
    | cons c s => simp [jsTruthy] at ht

/-! ## `scrapeMovies`: one entry, one page -/

theorem truthy_some_iff (s : Str) : truthy (some s) = true ↔ s ≠ [] := by
  cases s <;> simp [truthy]

theorem truthy_render (o : Option Str) (h : truthy o = true) : render o ≠ [] := by
  match o, h with
  | some (c :: s), _ => simp [render]

theorem truthy_movieIdOf (href : Str) : truthy (some (movieIdOf href)) = true := rfl

theorem searchMatches_nil (env : Env) (title : Str) : searchMatches env [] title = true := rfl

theorem scrapeEntry_eq (env : Env) (catalogUrl searchQuery : Str) (acc : List Movie × State)
    (elem : CatChild) :
    scrapeEntry env catalogUrl searchQuery acc elem =
      (if accepted elem && searchMatches env searchQuery (trim elem.titleText)
        then acc.1 ++ [toMovie elem] else acc.1,
       writeCaches env catalogUrl acc.2 elem) := by
  unfold scrapeEntry accepted writeCaches
  by_cases h1 : truthy elem.href = true
  · by_cases h2 : truthy elem.imgSrc = true
    · have h3 : truthy (some (normalizePoster (render elem.imgSrc))) = true :=
        (truthy_some_iff _).2 (normalizePoster_ne_nil _ (truthy_render _ h2))
      by_cases h4 : truthy (some (trim elem.titleText)) = true
      · by_cases h5 : searchMatches env searchQuery (trim elem.titleText) = true
        · simp [h1, h2, h3, h4, h5, truthy_movieIdOf, toMovie, accepted]
        · simp [h1, h2, h3, h4, h5, truthy_movieIdOf, toMovie, accepted]
      · simp [h1, h2, h3, h4, truthy_movieIdOf, accepted]
    · simp [h1, h2, accepted]
  · simp [h1, accepted]

theorem scrapeEntry_foldl (env : Env) (catalogUrl searchQuery : Str) (entries : List CatChild) :
    ∀ acc : List Movie × State,
      entries.foldl (scrapeEntry env catalogUrl searchQuery) acc =
        (acc.1 ++ (entries.filter (fun e =>
            accepted e && searchMatches env searchQuery (trim e.titleText))).map toMovie,
         entries.foldl (writeCaches env catalogUrl) acc.2) := by
  induction entries with
  | nil => intro acc; simp
  | cons e l ih =>
    intro acc
    rw [List.foldl_cons, ih, scrapeEntry_eq]
    by_cases h : (accepted e && searchMatches env searchQuery (trim e.titleText)) = true
    · simp [h, List.filter_cons]
    · simp [h, List.filter_cons]

theorem scrapePage_eq (env : Env) (catalogUrl searchQuery : Str) (entries : List CatChild)
    (st : State) :
    scrapePage env catalogUrl searchQuery entries st =
      ((entries.filter (fun e =>
          accepted e && searchMatches env searchQuery (trim e.titleText))).map toMovie,
       entries.foldl (writeCaches env catalogUrl) st) := by
  unfold scrapePage
  rw [scrapeEntry_foldl]
  simp

/-! ## `scrapeMovies`: the page loop -/

theorem scrapeMoviesLoop_step (env : Env) (catalogUrl searchQuery : Str) (currentPage : Nat)
    (allMovies : List Movie) (st : State) :
    scrapeMoviesLoop env catalogUrl searchQuery currentPage allMovies st =
      match (fetchWithRetry (env.get (pageUrl catalogUrl currentPage)) 3).result with
      | .error e => (.error e, logFetch st (pageUrl catalogUrl currentPage))
      | .ok html =>
        if currentPage + 1 > 8 ∨ truthy (env.load html).nextHref = false then
          (.ok (allMovies ++ (scrapePage env catalogUrl searchQuery (env.load html).catList
              (logFetch st (pageUrl catalogUrl currentPage))).1),
            (scrapePage env catalogUrl searchQuery (env.load html).catList
              (logFetch st (pageUrl catalogUrl currentPage))).2)
        else
          scrapeMoviesLoop env catalogUrl searchQuery (currentPage + 1)
            (allMovies ++ (scrapePage env catalogUrl searchQuery (env.load html).catList
              (logFetch st (pageUrl catalogUrl currentPage))).1)
            (scrapePage env catalogUrl searchQuery (env.load html).catList
              (logFetch st (pageUrl catalogUrl currentPage))).2 := by
  rw [scrapeMoviesLoop]
  unfold fetchLogged
  cases (fetchWithRetry (env.get (pageUrl catalogUrl currentPage)) 3).result with
  | error e => rfl
  | ok html =>
    by_cases h8 : currentPage + 1 > 8
    · simp [h8]
    · by_cases hn : truthy (env.load html).nextHref = true
      · simp [h8, hn]
      · simp [h8, hn]

theorem filter_page_movies (env : Env) (searchQuery : Str) (entries : List CatChild) :
    ((entries.filter (fun e => accepted e && searchMatches env [] (trim e.titleText))).map
        toMovie).filter (fun m => searchMatches env searchQuery m.title) =
      (entries.filter (fun e =>
        accepted e && searchMatches env searchQuery (trim e.titleText))).map toMovie := by
  rw [List.filter_map, List.filter_filter]
  congr 1
  apply List.filter_congr
  intro e _
  simp [searchMatches_nil, toMovie, Bool.and_comm]

theorem scrapeMoviesLoop_search (env : Env) (catalogUrl searchQuery : Str) :
    ∀ (n currentPage : Nat) (allMovies : List Movie) (st : State), 9 - currentPage ≤ n →
      scrapeMoviesLoop env catalogUrl searchQuery currentPage
          (allMovies.filter (fun m => searchMatches env searchQuery m.title)) st =
        ((scrapeMoviesLoop env catalogUrl [] currentPage allMovies st).1.map
            (List.filter (fun m => searchMatches env searchQuery m.title)),
          (scrapeMoviesLoop env catalogUrl [] currentPage allMovies st).2) := by
  intro n
  induction n with
  | zero =>
    intro currentPage allMovies st hn
    rw [scrapeMoviesLoop_step env catalogUrl searchQuery, scrapeMoviesLoop_step env catalogUrl []]
    cases (fetchWithRetry (env.get (pageUrl catalogUrl currentPage)) 3).result with
    | error e => rfl
    | ok html =>
      have h8 : currentPage + 1 > 8 := by omega
      simp only [h8, true_or, if_true, scrapePage_eq, Except.map, List.filter_append,
        filter_page_movies]
  | succ n ih =>
    intro currentPage allMovies st hn
    rw [scrapeMoviesLoop_step env catalogUrl searchQuery, scrapeMoviesLoop_step env catalogUrl []]
    cases (fetchWithRetry (env.get (pageUrl catalogUrl currentPage)) 3).result with
    | error e => rfl
    | ok html =>
      by_cases hstop : currentPage + 1 > 8 ∨ truthy (env.load html).nextHref = false
      · simp only [hstop, if_true, scrapePage_eq, Except.map, List.filter_append,
          filter_page_movies]
      · simp only [hstop, if_false, scrapePage_eq]
        have hlt : 9 - (currentPage + 1) ≤ n := by omega
        rw [← ih (currentPage + 1) _ _ hlt, List.filter_append, filter_page_movies]

theorem scrapeMovies_search (env : Env) (catalogUrl searchQuery : Str) (st : State) :
    scrapeMovies env catalogUrl searchQuery st =
      ((scrapeMovies env catalogUrl [] st).1.filter
          (fun m => searchMatches env searchQuery m.title),
        (scrapeMovies env catalogUrl [] st).2) := by
  have h := scrapeMoviesLoop_search env catalogUrl searchQuery 9 1 [] st (by omega)
  simp only [List.filter_nil] at h
  unfold scrapeMovies
  rw [h]
  cases scrapeMoviesLoop env catalogUrl [] 1 [] st with
  | mk r st1 =>
    cases r with
    | error e => rfl
    | ok l => rfl

theorem writeCaches_fetched (env : Env) (catalogUrl : Str) (st : State) (elem : CatChild) :
    (writeCaches env catalogUrl st elem).fetched = st.fetched := by
  unfold writeCaches
  split <;> rfl

theorem foldl_writeCaches_fetched (env : Env) (catalogUrl : Str) (entries : List CatChild) :
    ∀ st : State, (entries.foldl (writeCaches env catalogUrl) st).fetched = st.fetched := by
  induction entries with
  | nil => intro st; rfl
  | cons e l ih =>
    intro st
    rw [List.foldl_cons, ih, writeCaches_fetched]

theorem scrapeMoviesLoop_walk (env : Env) (catalogUrl searchQuery : Str) (pages : Nat → Doc)
    (m : Nat) (hm8 : m ≤ 8)
    (hfetch : ∀ k, 1 ≤ k → k ≤ m → ∃ html,
      (fetchWithRetry (env.get (pageUrl catalogUrl k)) 3).result = .ok html ∧
        env.load html = pages k)
    (hnext : ∀ k, 1 ≤ k → k < m → truthy (pages k).nextHref = true)
    (hstop : m = 8 ∨ truthy (pages m).nextHref = false) :
    ∀ (d currentPage : Nat) (allMovies : List Movie) (st : State),
      1 ≤ currentPage → currentPage + d = m →
      (scrapeMoviesLoop env catalogUrl searchQuery currentPage allMovies st).1 =
          .ok (allMovies ++ (List.range' currentPage (d + 1)).flatMap (fun k =>
            ((pages k).catList.filter (fun e =>
              accepted e && searchMatches env searchQuery (trim e.titleText))).map toMovie)) ∧
        (scrapeMoviesLoop env catalogUrl searchQuery currentPage allMovies st).2.fetched =
          st.fetched ++ (List.range' currentPage (d + 1)).map (pageUrl catalogUrl) := by
  intro d
  induction d with
  | zero =>
    intro currentPage allMovies st h1 hcp
    obtain ⟨html, hres, hload⟩ := hfetch currentPage h1 (by omega)
    have hs : currentPage + 1 > 8 ∨ truthy (env.load html).nextHref = false := by
      rcases hstop with h | h
      · left; omega
      · right
        rw [hload]
        have : currentPage = m := by omega
        rw [this]
        exact h
    rw [scrapeMoviesLoop_step, hres]
    rw [hload] at hs
    simp only [hload, hs, if_true, scrapePage_eq, foldl_writeCaches_fetched]
    simp [logFetch, List.range', List.flatMap_cons]
  | succ d ih =>
    intro currentPage allMovies st h1 hcp
    obtain ⟨html, hres, hload⟩ := hfetch currentPage h1 (by omega)
    have hs : ¬ (currentPage + 1 > 8 ∨ truthy (env.load html).nextHref = false) := by
      rw [hload, hnext currentPage h1 (by omega)]
      simp
      omega
    rw [scrapeMoviesLoop_step, hres]
    rw [hload] at hs
    simp only [hload, hs, if_false, scrapePage_eq]
    obtain ⟨ih1, ih2⟩ := ih (currentPage + 1)
      (allMovies ++ ((pages currentPage).catList.filter (fun e =>
        accepted e && searchMatches env searchQuery (trim e.titleText))).map toMovie)
      ((pages currentPage).catList.foldl (writeCaches env catalogUrl)
        (logFetch st (pageUrl catalogUrl currentPage))) (by omega) (by omega)
    rw [ih1, ih2, foldl_writeCaches_fetched]
    constructor
    · rw [List.range'_succ currentPage (d + 1)]
      simp [List.flatMap_cons]
    · rw [List.range'_succ currentPage (d + 1)]
      simp [logFetch]

theorem scrapeMoviesLoop_mem (env : Env) (catalogUrl searchQuery : Str) :
    ∀ (n currentPage : Nat) (allMovies : List Movie) (st : State), 9 - currentPage ≤ n →
      ∀ r, (scrapeMoviesLoop env catalogUrl searchQuery currentPage allMovies st).1 = .ok r →
        ∀ x ∈ r, x ∈ allMovies ∨ ∃ e, accepted e = true ∧ x = toMovie e := by
  intro n
  induction n with
  | zero =>
    intro currentPage allMovies st hn r hr x hx
    rw [scrapeMoviesLoop_step] at hr
    cases hres : (fetchWithRetry (env.get (pageUrl catalogUrl currentPage)) 3).result with
    | error e =>
      rw [hres] at hr
      cases hr
    | ok html =>
      have h8 : currentPage + 1 > 8 := by omega
      rw [hres] at hr
      simp only [h8, true_or, if_true, scrapePage_eq, Except.ok.injEq] at hr
      subst hr
      rcases List.mem_append.1 hx with h | h
      · exact Or.inl h
      · obtain ⟨e, he, rfl⟩ := List.mem_map.1 h
        have := (List.mem_filter.1 he).2
        simp only [Bool.and_eq_true] at this
        exact Or.inr ⟨e, this.1, rfl⟩
  | succ n ih =>
    intro currentPage allMovies st hn r hr x hx
    rw [scrapeMoviesLoop_step] at hr
    cases hres : (fetchWithRetry (env.get (pageUrl catalogUrl currentPage)) 3).result with
    | error e =>
      rw [hres] at hr
      cases hr
    | ok html =>
      rw [hres] at hr
      have hpage : ∀ y, y ∈ allMovies ++ ((env.load html).catList.filter (fun e =>
          accepted e && searchMatches env searchQuery (trim e.titleText))).map toMovie →
          y ∈ allMovies ∨ ∃ e, accepted e = true ∧ y = toMovie e := by
        intro y hy
        rcases List.mem_append.1 hy with h | h
        · exact Or.inl h
        · obtain ⟨e, he, rfl⟩ := List.mem_map.1 h
          have := (List.mem_filter.1 he).2
          simp only [Bool.and_eq_true] at this
          exact Or.inr ⟨e, this.1, rfl⟩
      by_cases hstop : currentPage + 1 > 8 ∨ truthy (env.load html).nextHref = false
      · simp only [hstop, if_true, scrapePage_eq, Except.ok.injEq] at hr
        subst hr
        exact hpage x hx
      · simp only [hstop, if_false, scrapePage_eq] at hr
        rcases ih (currentPage + 1) _ _ (by omega) r hr x hx with h | h
        · exact hpage x h
        · exact Or.inr h

theorem toMovie_nonempty (e : CatChild) (h : accepted e = true) :
    (toMovie e).id ≠ [] ∧ (toMovie e).title ≠ [] ∧ (toMovie e).poster ≠ [] := by
  simp only [accepted, Bool.and_eq_true] at h
  refine ⟨?_, (truthy_some_iff _).1 h.1.2, normalizePoster_ne_nil _ (truthy_render _ h.2)⟩
  exact (truthy_some_iff _).1 (truthy_movieIdOf _)

/-! ## The lookup caches -/

theorem lookup_cons_eq {β : Type} (k1 k2 : Str) (v2 : β) (m : List (Str × β)) :
    List.lookup k1 ((k2, v2) :: m) = if k1 = k2 then some v2 else List.lookup k1 m := by
  by_cases h : k1 = k2
  · subst h
    simp [List.lookup]
  · have hb : (k1 == k2) = false := by simpa using h
    simp [List.lookup, hb, h]

theorem mapGet_mapSet {β : Type} (m : List (Str × β)) (k : Str) (v : β) (k1 : Str) :
    mapGet (mapSet m k v) k1 = if k1 = k then some v else mapGet m k1 := by
  unfold mapGet
  induction m with
  | nil =>
    rw [mapSet, lookup_cons_eq]
  | cons p m ih =>
    obtain ⟨k2, v2⟩ := p
    by_cases h2 : k2 = k
    · subst h2
      rw [mapSet, if_pos rfl, lookup_cons_eq, lookup_cons_eq]
      by_cases h : k1 = k2
      · simp [h]
      · simp [h]
    · rw [mapSet, if_neg h2, lookup_cons_eq, lookup_cons_eq, ih]
      by_cases h : k1 = k
      · subst h
        have h3 : ¬ k1 = k2 := fun hc => h2 hc.symm
        simp [h3]
      · simp [h]

theorem writeCaches_written_mono (env : Env) (catalogUrl : Str) (st : State) (elem : CatChild)
    (id : Str) (h : Written catalogUrl st id) :
    Written catalogUrl (writeCaches env catalogUrl st elem) id := by
  unfold writeCaches
  by_cases ha : accepted elem = true
  · obtain ⟨h1, md, h2, h3⟩ := h
    simp only [ha, if_true, Written, mapGet_mapSet]
    by_cases hid : id = (toMovie elem).id
    · simp only [hid, if_true, true_and]
      exact ⟨_, rfl, rfl⟩
    · simp only [hid, if_false]
      exact ⟨h1, md, h2, h3⟩
  · simp only [ha]
    exact h

theorem writeCaches_written_self (env : Env) (catalogUrl : Str) (st : State) (elem : CatChild)
    (ha : accepted elem = true) :
    Written catalogUrl (writeCaches env catalogUrl st elem) (toMovie elem).id := by
  unfold writeCaches
  simp only [ha, if_true, Written, mapGet_mapSet, true_and]
  exact ⟨_, rfl, rfl⟩

theorem foldl_writeCaches_written (env : Env) (catalogUrl : Str) (entries : List CatChild) :
    ∀ st : State,
      (∀ id, Written catalogUrl st id →
        Written catalogUrl (entries.foldl (writeCaches env catalogUrl) st) id) ∧
      (∀ e ∈ entries, accepted e = true →
        Written catalogUrl (entries.foldl (writeCaches env catalogUrl) st) (toMovie e).id) := by
  induction entries with
  | nil =>
    intro st
    exact ⟨fun _ h => h, fun e he => absurd he (List.not_mem_nil e)⟩
  | cons a l ih =>
    intro st
    obtain ⟨ih1, ih2⟩ := ih (writeCaches env catalogUrl st a)
    refine ⟨fun id h => ih1 id (writeCaches_written_mono env catalogUrl st a id h), ?_⟩
    intro e he ha
    rcases List.mem_cons.1 he with rfl | h
    · exact ih1 _ (writeCaches_written_self env catalogUrl st e ha)
    · exact ih2 e h ha

theorem written_logFetch (catalogUrl : Str) (st : State) (url id : Str)
    (h : Written catalogUrl st id) : Written catalogUrl (logFetch st url) id := h

theorem scrapeMoviesLoop_written (env : Env) (catalogUrl searchQuery : Str) :
    ∀ (n currentPage : Nat) (allMovies : List Movie) (st : State), 9 - currentPage ≤ n →
      (∀ id, Written catalogUrl st id → Written catalogUrl
        (scrapeMoviesLoop env catalogUrl searchQuery currentPage allMovies st).2 id) ∧
      ∃ delta,
        (scrapeMoviesLoop env catalogUrl searchQuery currentPage allMovies st).2.fetched =
          st.fetched ++ delta ∧
        ∀ u ∈ delta, ∀ html, (fetchWithRetry (env.get u) 3).result = .ok html →
          ∀ e ∈ (env.load html).catList, accepted e = true → Written catalogUrl
            (scrapeMoviesLoop env catalogUrl searchQuery currentPage allMovies st).2
            (toMovie e).id := by
  intro n
  induction n with
  | zero =>
    intro currentPage allMovies st hn
    rw [scrapeMoviesLoop_step]
    cases hres : (fetchWithRetry (env.get (pageUrl catalogUrl currentPage)) 3).result with
    | error e =>
      refine ⟨fun id h => h, [pageUrl catalogUrl currentPage], rfl, ?_⟩
      intro u hu html hok
      rw [List.mem_singleton.1 hu, hres] at hok
      cases hok
    | ok html =>
      have h8 : currentPage + 1 > 8 := by omega
      simp only [h8, true_or, if_true, scrapePage_eq]
      obtain ⟨f1, f2⟩ := foldl_writeCaches_written env catalogUrl (env.load html).catList
        (logFetch st (pageUrl catalogUrl currentPage))
      refine ⟨fun id h => f1 id h, [pageUrl catalogUrl currentPage], ?_, ?_⟩
      · rw [foldl_writeCaches_fetched]
        rfl
      · intro u hu html1 hok e he ha
        rw [List.mem_singleton.1 hu, hres] at hok
        cases hok
        exact f2 e he ha
  | succ n ih =>
    intro currentPage allMovies st hn
    rw [scrapeMoviesLoop_step]
    cases hres : (fetchWithRetry (env.get (pageUrl catalogUrl currentPage)) 3).result with
    | error e =>
      refine ⟨fun id h => h, [pageUrl catalogUrl currentPage], rfl, ?_⟩
      intro u hu html hok
      rw [List.mem_singleton.1 hu, hres] at hok
      cases hok
    | ok html =>
      obtain ⟨f1, f2⟩ := foldl_writeCaches_written env catalogUrl (env.load html).catList
        (logFetch st (pageUrl catalogUrl currentPage))
      by_cases hstop : currentPage + 1 > 8 ∨ truthy (env.load html).nextHref = false
      · simp only [hstop, if_true, scrapePage_eq]
        refine ⟨fun id h => f1 id h, [pageUrl catalogUrl currentPage], ?_, ?_⟩
        · rw [foldl_writeCaches_fetched]
          rfl
        · intro u hu html1 hok e he ha
          rw [List.mem_singleton.1 hu, hres] at hok
          cases hok
          exact f2 e he ha
      · simp only [hstop, if_false, scrapePage_eq]
        obtain ⟨g1, delta, g2, g3⟩ := ih (currentPage + 1)
          (allMovies ++ ((env.load html).catList.filter (fun e =>
            accepted e && searchMatches env searchQuery (trim e.titleText))).map toMovie)
          ((env.load html).catList.foldl (writeCaches env catalogUrl)
            (logFetch st (pageUrl catalogUrl currentPage))) (by omega)
        refine ⟨fun id h => g1 id (f1 id h), pageUrl catalogUrl currentPage :: delta, ?_, ?_⟩
        · rw [g2, foldl_writeCaches_fetched]
          simp [logFetch]
        · intro u hu html1 hok e he ha
          rcases List.mem_cons.1 hu with rfl | hmem
          · rw [hres] at hok
            cases hok
            exact g1 _ (f2 e he ha)
          · exact g3 u hmem html1 hok e he ha

/-! ## `scrapeMovies`: the claims -/

/-- C4: when the fetches of listing pages `1..m` succeed, where `m` is the smaller of 8 and the
number of the first page without a `Next >` link, `scrapeMovies` with no search text requests
exactly the pages `1, 2, ..., m` in this order and returns the accepted entries of those pages,
page after page and in document order within a page. -/
theorem scrapeMovies_walk (env : Env) (catalogUrl : Str) (st : State) (pages : Nat → Doc)
    (m : Nat) (hm1 : 1 ≤ m) (hm8 : m ≤ 8)
    (hfetch : ∀ k, 1 ≤ k → k ≤ m → ∃ html,
      (fetchWithRetry (env.get (pageUrl catalogUrl k)) 3).result = .ok html ∧
        env.load html = pages k)
    (hnext : ∀ k, 1 ≤ k → k < m → truthy (pages k).nextHref = true)
    (hstop : m = 8 ∨ truthy (pages m).nextHref = false) :
    (scrapeMovies env catalogUrl [] st).1 =
        (List.range' 1 m).flatMap (fun k => ((pages k).catList.filter accepted).map toMovie) ∧
      (scrapeMovies env catalogUrl [] st).2.fetched =
        st.fetched ++ (List.range' 1 m).map (pageUrl catalogUrl) := by
  obtain ⟨h1, h2⟩ := scrapeMoviesLoop_walk env catalogUrl [] pages m hm8 hfetch hnext hstop
    (m - 1) 1 [] st (by omega) (by omega)
  have hm : m - 1 + 1 = m := by omega
  rw [hm] at h1 h2
  unfold scrapeMovies
  cases hloop : scrapeMoviesLoop env catalogUrl [] 1 [] st with
  | mk r st1 =>
    rw [hloop] at h1 h2
    simp only at h1 h2
    subst h1
    simp only [List.nil_append]
    refine ⟨?_, h2⟩
    congr 1
    funext k
    congr 1
    apply List.filter_congr
    intro e _
    simp [searchMatches_nil]

/-- The example of C4: page 1 holds A and B and a next link, page 2 holds C and no next link;
the walk returns A, B, C after exactly two page fetches. -/
theorem scrapeMovies_walk_witness :
    (scrapeMovies twoPageEnv listingUrl [] emptyState).1 =
        [{ id := "bhojpuriraas:101".toList, title := "R@ja".toList,
           poster := "/images/raja_3.jpg".toList },
         { id := "bhojpuriraas:102".toList, title := "Bidaai".toList,
           poster := "/images/bidaai_3.jpg".toList },
         { id := "bhojpuriraas:103".toList, title := "Chalbaaz".toList,
           poster := "/images/chalbaaz_3.jpg".toList }] ∧
      (scrapeMovies twoPageEnv listingUrl [] emptyState).2.fetched =
        ["https://bhojpuriraas.net/movies/1.html".toList,
         "https://bhojpuriraas.net/movies/2.html".toList] := by
  have h := scrapeMovies_walk twoPageEnv listingUrl emptyState twoPages 2 (by decide) (by decide)
    (by
      intro k h1 h2
      have hk : k = 1 ∨ k = 2 := by omega
      rcases hk with rfl | rfl
      · exact ⟨some "page one".toList, rfl, rfl⟩
      · exact ⟨some "page two".toList, rfl, rfl⟩)
    (by
      intro k h1 h2
      have hk : k = 1 := by omega
      subst hk
      rfl)
    (Or.inr rfl)
  exact ⟨h.1.trans (by decide), h.2.trans (by decide)⟩

theorem replaceChar_idem (c : Char) : replaceChar (replaceChar c) = replaceChar c := by
  unfold replaceChar
  by_cases h1 : c = '@'
  · subst h1
    decide
  · by_cases h2 : c = '0'
    · subst h2
      decide
    · simp [h1, h2]

theorem replaceChar_comp : replaceChar ∘ replaceChar = replaceChar :=
  funext replaceChar_idem

theorem normalizeText_idem (lower : Str → Str) (text : Str) :
    normalizeText lower (normalizeText lower text false) false = normalizeText lower text false := by
  simp [normalizeText, replaceChar_idem]

theorem searchMatches_eq (env : Env) (searchQuery title : Str) (hq : searchQuery ≠ []) :
    searchMatches env searchQuery title =
      includes (env.toLowerCase (normalizeText env.toLowerCase title false))
        (env.toLowerCase (normalizeText env.toLowerCase searchQuery false)) := by
  have ht : truthy (some searchQuery) = true := (truthy_some_iff _).2 hq
  unfold searchMatches
  rw [ht]
  simp [normalizeText, replaceChar_comp]

theorem twoPage_listing :
    (scrapeMovies twoPageEnv listingUrl [] emptyState).1 =
      [toMovie entryA, toMovie entryB, toMovie entryC] := by
  obtain ⟨h1, _⟩ := scrapeMoviesLoop_walk twoPageEnv listingUrl [] twoPages 2 (by decide)
    (by
      intro k h1 h2
      have hk : k = 1 ∨ k = 2 := by omega
      rcases hk with rfl | rfl
      · exact ⟨some "page one".toList, rfl, rfl⟩
      · exact ⟨some "page two".toList, rfl, rfl⟩)
    (by
      intro k h1 h2
      have hk : k = 1 := by omega
      subst hk
      rfl)
    (Or.inr rfl) 1 1 [] emptyState (by decide) (by decide)
  unfold scrapeMovies
  cases hloop : scrapeMoviesLoop twoPageEnv listingUrl [] 1 [] emptyState with
  | mk r st1 =>
    rw [hloop] at h1
    simp only at h1
    subst h1
    simp only [List.nil_append]
    decide

/-- C5: every item `scrapeMovies` yields has a non-empty id, title and poster; the items a
page yields are exactly its entries that have a detail link, a non-empty trimmed title and a
poster source, in their original order (for a page taken alone, and for the whole result
of a one-page catalog); and an entry lacking one of the three, put anywhere among the
entries, changes nothing in what its siblings yield. -/
theorem scrapeMovies_items (env : Env) (catalogUrl searchQuery : Str) (st : State) :
    (∀ x ∈ (scrapeMovies env catalogUrl searchQuery st).1,
        x.id ≠ [] ∧ x.title ≠ [] ∧ x.poster ≠ []) ∧
      (∀ entries st1, (scrapePage env catalogUrl [] entries st1).1 =
        (entries.filter accepted).map toMovie) ∧
      (∀ html, (fetchWithRetry (env.get (pageUrl catalogUrl 1)) 3).result = .ok html →
        truthy (env.load html).nextHref = false →
        (scrapeMovies env catalogUrl [] st).1 =
          ((env.load html).catList.filter accepted).map toMovie) ∧
      (∀ before after e st1, accepted e = false →
        (scrapePage env catalogUrl searchQuery (before ++ e :: after) st1).1 =
          (scrapePage env catalogUrl searchQuery (before ++ after) st1).1) := by
  refine ⟨?_, ?_, ?_, ?_⟩
  · intro x hx
    unfold scrapeMovies at hx
    cases hloop : scrapeMoviesLoop env catalogUrl searchQuery 1 [] st with
    | mk r st1 =>
      rw [hloop] at hx
      cases r with
      | error e => exact absurd hx (List.not_mem_nil x)
      | ok l =>
        have hr : (scrapeMoviesLoop env catalogUrl searchQuery 1 [] st).1 = .ok l := by
          rw [hloop]
        rcases scrapeMoviesLoop_mem env catalogUrl searchQuery 9 1 [] st (by omega) l hr x hx
          with h | ⟨e, he, rfl⟩
        · exact absurd h (List.not_mem_nil x)
        · exact toMovie_nonempty e he
  · intro entries st1
    rw [scrapePage_eq]
    simp [searchMatches_nil]
  · intro html hres hnext
    obtain ⟨h1, _⟩ := scrapeMoviesLoop_walk env catalogUrl [] (fun _ => env.load html) 1
      (by omega) (fun k hk1 hk2 => by
        have hk : k = 1 := by omega
        subst hk
        exact ⟨html, hres, rfl⟩)
      (fun k hk1 hk2 => by omega) (Or.inr hnext) 0 1 [] st (by omega) (by omega)
    unfold scrapeMovies
    cases hloop : scrapeMoviesLoop env catalogUrl [] 1 [] st with
    | mk r st1 =>
      rw [hloop] at h1
      simp only at h1
      subst h1
      simp [List.range', List.flatMap_cons, searchMatches_nil]
  · intro before after e st1 he
    rw [scrapePage_eq, scrapePage_eq]
    simp [List.filter_append, List.filter_cons, he]

theorem scrapeMovies_one_page (env : Env) (catalogUrl searchQuery : Str) (st : State)
    (html : Option Str)
    (hres : (fetchWithRetry (env.get (pageUrl catalogUrl 1)) 3).result = .ok html)
    (hnext : truthy (env.load html).nextHref = false) :
    scrapeMovies env catalogUrl searchQuery st =
      scrapePage env catalogUrl searchQuery (env.load html).catList
        (logFetch st (pageUrl catalogUrl 1)) := by
  unfold scrapeMovies
  rw [scrapeMoviesLoop_step, hres]
  simp only [hnext, or_true, if_true, List.nil_append]

/-- C6, as stated, fails: entry D, with a detail link and a title but no image, is observed on
the one page the walk fetches, and after the walk, with or without search text, neither cache
holds an entry for its id, while entry A of the same page is cached. -/
theorem scrapeMovies_leaves_posterless_entry_uncached :
    (fetchWithRetry (posterlessEnv.get (pageUrl listingUrl 1)) 3).result =
        .ok (some "listing".toList) ∧
      entryD ∈ (posterlessEnv.load (some "listing".toList)).catList ∧
      movieIdOf (render entryD.href) = "bhojpuriraas:104".toList ∧
      (scrapeMovies posterlessEnv listingUrl [] emptyState).2.fetched =
        ["https://bhojpuriraas.net/movies/1.html".toList] ∧
      mapGet (scrapeMovies posterlessEnv listingUrl [] emptyState).2.catalogUrlMap
        "bhojpuriraas:104".toList = none ∧
      mapGet (scrapeMovies posterlessEnv listingUrl [] emptyState).2.movieMetadataMap
        "bhojpuriraas:104".toList = none ∧
      mapGet (scrapeMovies posterlessEnv listingUrl "raja".toList emptyState).2.catalogUrlMap
        "bhojpuriraas:104".toList = none ∧
      mapGet (scrapeMovies posterlessEnv listingUrl "raja".toList emptyState).2.movieMetadataMap
        "bhojpuriraas:104".toList = none ∧
      mapGet (scrapeMovies posterlessEnv listingUrl [] emptyState).2.catalogUrlMap
        "bhojpuriraas:101".toList = some listingUrl := by
  have h1 := scrapeMovies_one_page posterlessEnv listingUrl [] emptyState
    (some "listing".toList) rfl rfl
  have h2 := scrapeMovies_one_page posterlessEnv listingUrl "raja".toList emptyState
    (some "listing".toList) rfl rfl
  rw [h1, h2]
  refine ⟨rfl, ?_, by decide, by decide, by decide, by decide, by decide, by decide, by decide⟩
  show entryD ∈ [entryA, entryD]
  exact List.mem_cons_of_mem _ (List.mem_cons_self _ _)

/-- C6 (amended): the search text only filters the returned list.  The walk with a search text
leaves the program state (the pages requested, `catalogUrlMap`, `movieMetadataMap`) exactly as
the walk without one, and its result is the unfiltered result restricted to the matching
items.  After it both caches hold an entry for every entry of a fetched page that has a
detail link, a non-empty trimmed title and a poster source, whether or not the entry matches
the search text; an entry lacking one of the three writes nothing. -/
theorem scrapeMovies_search_frame (env : Env) (catalogUrl searchQuery : Str) (st : State) :
    (scrapeMovies env catalogUrl searchQuery st).2 = (scrapeMovies env catalogUrl [] st).2 ∧
      (scrapeMovies env catalogUrl searchQuery st).1 =
        (scrapeMovies env catalogUrl [] st).1.filter
          (fun x => searchMatches env searchQuery x.title) ∧
      (∃ delta, (scrapeMovies env catalogUrl searchQuery st).2.fetched = st.fetched ++ delta ∧
        ∀ u ∈ delta, ∀ html, (fetchWithRetry (env.get u) 3).result = .ok html →
          ∀ e ∈ (env.load html).catList, accepted e = true →
            Written catalogUrl (scrapeMovies env catalogUrl searchQuery st).2 (toMovie e).id) ∧
      (∀ e acc, accepted e = false →
        (scrapeEntry env catalogUrl searchQuery acc e).2 = acc.2) := by
  have hs := scrapeMovies_search env catalogUrl searchQuery st
  refine ⟨by rw [hs], by rw [hs], ?_, fun e acc he => by
    rw [scrapeEntry_eq]
    simp [writeCaches, he]⟩
  obtain ⟨_, delta, h2, h3⟩ :=
    scrapeMoviesLoop_written env catalogUrl searchQuery 9 1 [] st (by omega)
  have hst : (scrapeMovies env catalogUrl searchQuery st).2 =
      (scrapeMoviesLoop env catalogUrl searchQuery 1 [] st).2 := by
    unfold scrapeMovies
    cases scrapeMoviesLoop env catalogUrl searchQuery 1 [] st with
    | mk r st1 => cases r <;> rfl
  rw [hst]
  exact ⟨delta, h2, h3⟩

/-- C10: title normalization is the same for storage and for search.  For a non-empty search
text `q`, an item with title `t` found by the walk is yielded by the search exactly when the
lower-cased `normalizeText(q)` is a substring of the lower-cased `normalizeText(t)`, the name
stored for it; the search yields nothing else; and `normalizeText` is idempotent, so the double
application in the predicate equals a single one. -/
theorem search_uses_stored_name (env : Env) (catalogUrl searchQuery : Str) (st : State)
    (hq : searchQuery ≠ []) :
    (∀ x ∈ (scrapeMovies env catalogUrl [] st).1,
        (x ∈ (scrapeMovies env catalogUrl searchQuery st).1 ↔
          includes (env.toLowerCase (normalizeText env.toLowerCase x.title false))
            (env.toLowerCase (normalizeText env.toLowerCase searchQuery false)) = true)) ∧
      (∀ x ∈ (scrapeMovies env catalogUrl searchQuery st).1,
        x ∈ (scrapeMovies env catalogUrl [] st).1) ∧
      (∀ id t p, (mkMetadata env id t p).name = normalizeText env.toLowerCase t false) ∧
      (∀ t, normalizeText env.toLowerCase (normalizeText env.toLowerCase t false) true =
        env.toLowerCase (normalizeText env.toLowerCase t false)) ∧
      (∀ (lower : Str → Str) (t : Str) (b : Bool),
        normalizeText lower (normalizeText lower t false) b = normalizeText lower t b) := by
  have hs := scrapeMovies_search env catalogUrl searchQuery st
  refine ⟨?_, ?_, fun _ _ _ => rfl, ?_, ?_⟩
  · intro x hx
    rw [hs]
    simp only [List.mem_filter, hx, true_and]
    rw [searchMatches_eq env searchQuery x.title hq]
  · intro x hx
    rw [hs] at hx
    exact (List.mem_filter.1 hx).1
  · intro t
    simp [normalizeText, replaceChar_comp]
  · intro lower t b
    simp [normalizeText, replaceChar_comp]

/-- The example of C10: the search text `raja` yields the entry titled `R@ja`, whose stored
name is `Raja`. -/
theorem search_uses_stored_name_witness :
    toMovie entryA ∈ (scrapeMovies twoPageEnv listingUrl "raja".toList emptyState).1 ∧
      (toMovie entryA).title = "R@ja".toList ∧
      (mkMetadata twoPageEnv (toMovie entryA).id (toMovie entryA).title
        (toMovie entryA).poster).name = "Raja".toList :=
  ⟨((search_uses_stored_name twoPageEnv listingUrl "raja".toList emptyState (by decide)).1
      (toMovie entryA) (by rw [twoPage_listing]; decide)).2 (by decide),
    by decide,
    ((search_uses_stored_name twoPageEnv listingUrl "raja".toList emptyState (by decide)).2.2.1
      _ _ _).trans (by decide)⟩

/-! ## `scrapeMovieStream`: locating the item -/

theorem appendFetched_append (st : State) (a b : List Str) :
    appendFetched (appendFetched st a) b = appendFetched st (a ++ b) := by
  simp [appendFetched]

theorem logFetch_eq (st : State) (url : Str) : logFetch st url = appendFetched st [url] := rfl

theorem searchPagesLoop_step (env : Env) (catalogUrl movieId : Str) (currentPage : Nat)
    (st : State) :
    searchPagesLoop env catalogUrl movieId currentPage st =
      match lookOn env movieId (pageUrl catalogUrl (currentPage + 1)) with
      | .error e => (.error e, appendFetched st [pageUrl catalogUrl (currentPage + 1)])
      | .ok (element, next) =>
        if currentPage + 1 > 8 ∨ next = false ∨ element.isSome = true then
          (.ok element, appendFetched st [pageUrl catalogUrl (currentPage + 1)])
        else
          searchPagesLoop env catalogUrl movieId (currentPage + 1)
            (appendFetched st [pageUrl catalogUrl (currentPage + 1)]) := by
  rw [searchPagesLoop]
  unfold fetchLogged lookOn
  rw [logFetch_eq]
  cases (fetchWithRetry (env.get (pageUrl catalogUrl (currentPage + 1))) 3).result with
  | error e => rfl
  | ok pageHtml =>
    simp only []
    cases hf : findLink (env.load pageHtml) movieId with
    | error e => rfl
    | ok element =>
      by_cases h8 : currentPage + 1 > 8
      · simp [h8]
      · by_cases hn : truthy (env.load pageHtml).nextHref = true
        · cases element <;> simp [h8, hn]
        · simp [h8, hn]

theorem searchPagesLoop_run (env : Env) (catalogUrl movieId : Str) :
    ∀ (n currentPage : Nat), 1 ≤ currentPage → currentPage ≤ 8 → 9 - currentPage ≤ n →
      ∃ len, 1 ≤ len ∧
        (∀ k, currentPage < k → k < currentPage + len →
          lookOn env movieId (pageUrl catalogUrl k) = .ok (none, true)) ∧
        (lookOn env movieId (pageUrl catalogUrl (currentPage + len)) = .ok (none, true) →
          8 ≤ currentPage + len) ∧
        ∀ st, searchPagesLoop env catalogUrl movieId currentPage st =
          (Except.map Prod.fst (lookOn env movieId (pageUrl catalogUrl (currentPage + len))),
            appendFetched st
              ((List.range' (currentPage + 1) len).map (pageUrl catalogUrl))) := by
  intro n
  induction n with
  | zero =>
    intro currentPage h1 h8 hn
    omega
  | succ n ih =>
    intro currentPage h1 h8 hn
    cases hl : lookOn env movieId (pageUrl catalogUrl (currentPage + 1)) with
    | error e =>
      refine ⟨1, le_refl 1, fun k hk1 hk2 => by omega, ?_, ?_⟩
      · intro hc
        rw [hl] at hc
        cases hc
      · intro st
        rw [searchPagesLoop_step, hl]
        rfl
    | ok found =>
      obtain ⟨element, next⟩ := found
      by_cases hstop : currentPage + 1 > 8 ∨ next = false ∨ element.isSome = true
      · refine ⟨1, le_refl 1, fun k hk1 hk2 => by omega, ?_, ?_⟩
        · intro hc
          rw [hl] at hc
          simp only [Except.ok.injEq, Prod.mk.injEq] at hc
          rcases hstop with h | h | h
          · omega
          · rw [hc.2] at h
            exact absurd h (by decide)
          · rw [hc.1] at h
            exact absurd h (by decide)
        · intro st
          rw [searchPagesLoop_step, hl]
          simp only [hstop, if_true]
          rfl
      · have h9 : currentPage + 1 ≤ 8 := by
          by_contra hc
          exact hstop (Or.inl (by omega))
        have hnext : next = true := by
          cases next
          · exact absurd (Or.inr (Or.inl rfl)) hstop
          · rfl
        have helem : element = none := by
          cases element with
          | none => rfl
          | some x => exact absurd (Or.inr (Or.inr rfl)) hstop
        obtain ⟨len, hlen, hmid, hlast, hrun⟩ :=
          ih (currentPage + 1) (by omega) h9 (by omega)
        have hadd : currentPage + 1 + len = currentPage + (len + 1) := by omega
        rw [hadd] at hlast hrun
        refine ⟨len + 1, by omega, ?_, hlast, ?_⟩
        · intro k hk1 hk2
          by_cases hk : k = currentPage + 1
          · rw [hk, hl, hnext, helem]
          · exact hmid k (by omega) (by omega)
        · intro st
          rw [searchPagesLoop_step, hl]
          simp only [hstop, if_false]
          rw [hrun, appendFetched_append, List.range'_succ (currentPage + 1) len]
          rfl

theorem findMovieElement_step (env : Env) (catalogUrl movieId : Str) (st : State) :
    findMovieElement env catalogUrl movieId st =
      match lookOn env movieId catalogUrl with
      | .error e => (.error e, appendFetched st [catalogUrl])
      | .ok (some element, _) => (.ok (some element), appendFetched st [catalogUrl])
      | .ok (none, _) => searchPagesLoop env catalogUrl movieId 1 (appendFetched st [catalogUrl]) := by
  unfold findMovieElement fetchLogged lookOn
  rw [logFetch_eq]
  cases (fetchWithRetry (env.get catalogUrl) 3).result with
  | error e => rfl
  | ok html =>
    simp only []
    cases hf : findLink (env.load html) movieId with
    | error e => rfl
    | ok element => cases element <;> rfl

theorem findMovieElement_run (env : Env) (catalogUrl movieId : Str) :
    ∃ n, (1 ≤ n ↔ ∃ next, lookOn env movieId catalogUrl = .ok (none, next)) ∧
      (∀ k, 2 ≤ k → k ≤ n → lookOn env movieId (pageUrl catalogUrl k) = .ok (none, true)) ∧
      (1 ≤ n → lookOn env movieId (pageUrl catalogUrl (n + 1)) = .ok (none, true) →
        8 ≤ n + 1) ∧
      ∀ st, findMovieElement env catalogUrl movieId st =
        (Except.map Prod.fst
            (lookOn env movieId (if n = 0 then catalogUrl else pageUrl catalogUrl (n + 1))),
          appendFetched st (catalogUrl :: (List.range' 2 n).map (pageUrl catalogUrl))) := by
  cases hl : lookOn env movieId catalogUrl with
  | error e =>
    refine ⟨0, ?_, fun k hk1 hk2 => by omega, fun h => by omega, fun st => ?_⟩
    · constructor
      · intro h
        omega
      · rintro ⟨next, hc⟩
        cases hc
    · rw [findMovieElement_step, hl]
      simp only [if_true, hl]
      rfl
  | ok found =>
    obtain ⟨element, next⟩ := found
    cases element with
    | some x =>
      refine ⟨0, ?_, fun k hk1 hk2 => by omega, fun h => by omega, fun st => ?_⟩
      · constructor
        · intro h
          omega
        · rintro ⟨next1, hc⟩
          cases hc
      · rw [findMovieElement_step, hl]
        simp only [if_true, hl]
        rfl
    | none =>
      obtain ⟨len, hlen, hmid, hlast, hrun⟩ :=
        searchPagesLoop_run env catalogUrl movieId 8 1 (by omega) (by omega) (by omega)
      have hadd : 1 + len = len + 1 := by omega
      rw [hadd] at hlast hrun
      refine ⟨len, ?_, fun k hk1 hk2 => hmid k (by omega) (by omega), fun _ => hlast,
        fun st => ?_⟩
      · exact ⟨fun _ => ⟨next, rfl⟩, fun _ => hlen⟩
      · have h0 : ¬ len = 0 := by omega
        rw [findMovieElement_step, hl]
        simp only [h0, if_false]
        rw [hrun, appendFetched_append]
        rfl

theorem findCatalogUrl_hit (env : Env) (movieId : Str) (st : State) (cached : Str)
    (h : mapGet st.catalogUrlMap ("bhojpuriraas:".toList ++ movieId) = some cached)
    (hc : cached ≠ []) : findCatalogUrl env movieId st = (some cached, st) := by
  unfold findCatalogUrl
  simp only [h, (truthy_some_iff cached).2 hc, if_true]

theorem searchPagesLoop_exhaust (env : Env) (catalogUrl movieId : Str)
    (hpages : ∀ k, 2 ≤ k → k ≤ 9 →
      lookOn env movieId (pageUrl catalogUrl k) = .ok (none, true)) :
    ∀ (d currentPage : Nat) (st : State), 1 ≤ currentPage → currentPage + d = 8 →
      searchPagesLoop env catalogUrl movieId currentPage st =
        (.ok none,
          appendFetched st ((List.range' (currentPage + 1) (d + 1)).map (pageUrl catalogUrl))) := by
  intro d
  induction d with
  | zero =>
    intro currentPage st h1 hcp
    have h8 : currentPage + 1 > 8 := by omega
    rw [searchPagesLoop_step, hpages (currentPage + 1) (by omega) (by omega)]
    simp [h8, List.range']
  | succ d ih =>
    intro currentPage st h1 hcp
    have h8 : ¬ currentPage + 1 > 8 := by omega
    rw [searchPagesLoop_step, hpages (currentPage + 1) (by omega) (by omega)]
    simp only [h8, Option.isSome_none, false_or, if_false]
    rw [if_neg (by decide), ih (currentPage + 1) _ (by omega) (by omega), appendFetched_append,
      List.range'_succ (currentPage + 1) (d + 1)]
    simp

theorem findMovieElement_exhaust (env : Env) (catalogUrl movieId : Str) (st : State)
    (hfirst : ∃ next, lookOn env movieId catalogUrl = .ok (none, next))
    (hpages : ∀ k, 2 ≤ k → k ≤ 9 →
      lookOn env movieId (pageUrl catalogUrl k) = .ok (none, true)) :
    findMovieElement env catalogUrl movieId st =
      (.ok none,
        appendFetched st (catalogUrl :: (List.range' 2 8).map (pageUrl catalogUrl))) := by
  obtain ⟨next, hl⟩ := hfirst
  rw [findMovieElement_step, hl]
  simp only []
  rw [searchPagesLoop_exhaust env catalogUrl movieId hpages 7 1 _ (by omega) (by omega),
    appendFetched_append]
  rfl

/-- C2 fails on the code: on a catalog whose pages all carry a `Next >` link and never show the
item, the search of `scrapeMovieStream` requests nine listing pages, the catalog page and then
pages 2 to 9, while `scrapeMovies` on the same catalog stops after page 8. -/
theorem findMovieElement_requests_page_nine :
    (scrapeMovieStream endlessEnv "101".toList warmState).1 = none ∧
      (scrapeMovieStream endlessEnv "101".toList warmState).2.fetched =
        listingUrl :: (List.range' 2 8).map (pageUrl listingUrl) ∧
      (scrapeMovieStream endlessEnv "101".toList warmState).2.fetched.length = 9 ∧
      "https://bhojpuriraas.net/movies/9.html".toList ∈
        (scrapeMovieStream endlessEnv "101".toList warmState).2.fetched ∧
      (scrapeMovies endlessEnv listingUrl [] warmState).2.fetched =
        (List.range' 1 8).map (pageUrl listingUrl) := by
  have hcat : findCatalogUrl endlessEnv "101".toList warmState = (some listingUrl, warmState) :=
    findCatalogUrl_hit endlessEnv "101".toList warmState listingUrl rfl (by decide)
  have hfind := findMovieElement_exhaust endlessEnv listingUrl "101".toList warmState
    ⟨true, rfl⟩ (fun k _ _ => rfl)
  have hrun : scrapeMovieStream endlessEnv "101".toList warmState =
      (none, appendFetched warmState
        (listingUrl :: (List.range' 2 8).map (pageUrl listingUrl))) := by
    unfold scrapeMovieStream scrapeMovieStreamBody locateItem
    rw [hcat]
    simp only []
    rw [hfind]
  have hwalk := (scrapeMoviesLoop_walk endlessEnv listingUrl [] (fun _ => endlessDoc) 8
    (by omega) (fun k _ _ => ⟨some "listing".toList, rfl, rfl⟩) (fun k _ _ => rfl) (Or.inl rfl)
    7 1 [] warmState (by omega) (by omega)).2
  have hst : (scrapeMovies endlessEnv listingUrl [] warmState).2 =
      (scrapeMoviesLoop endlessEnv listingUrl [] 1 [] warmState).2 := by
    unfold scrapeMovies
    cases scrapeMoviesLoop endlessEnv listingUrl [] 1 [] warmState with
    | mk r st1 => cases r <;> rfl
  rw [hrun, hst, hwalk]
  refine ⟨rfl, rfl, rfl, by decide, rfl⟩

/-- C3, as stated, fails: with item `101` in `catalogUrlMap` and the site unchanged, a second
run of the locate phase requests the listing page again. -/
theorem locateItem_second_run_fetches :
    mapGet (locateItem twoPageEnv "101".toList warmState).2.catalogUrlMap
        "bhojpuriraas:101".toList = some listingUrl ∧
      (locateItem twoPageEnv "101".toList
          (locateItem twoPageEnv "101".toList warmState).2).2.fetched =
        (locateItem twoPageEnv "101".toList warmState).2.fetched ++ [listingUrl] ∧
      (locateItem twoPageEnv "101".toList
          (locateItem twoPageEnv "101".toList warmState).2).2.fetched ≠
        (locateItem twoPageEnv "101".toList warmState).2.fetched := by
  decide

/-- C3 (amended): for an item id present in `catalogUrlMap`, the locate phase of
`scrapeMovieStream` skips the catalog discovery (the lookup returns the cached URL without any
request and without touching the state) and modifies neither cache, but it does issue
listing-page requests.  It always requests the cached catalog page.  When that page is fetched
and does not show the item, it goes on to the listing pages 2, 3, ... of that catalog in order;
a page is requested only after every page before it was fetched, did not show the item and
(from page 2 on) carried a next link, and the walk does not stop on such a page before page 8.
The result is what the last page requested gives.  On unchanged site pages a second run
returns the same listing entry as the first and issues the same requests again. -/
theorem locateItem_cache_hit (env : Env) (movieId : Str) (st : State) (cached : Str)
    (h : mapGet st.catalogUrlMap ("bhojpuriraas:".toList ++ movieId) = some cached)
    (hc : cached ≠ []) :
    findCatalogUrl env movieId st = (some cached, st) ∧
      ∃ n, (1 ≤ n ↔ ∃ next, lookOn env movieId cached = .ok (none, next)) ∧
        (∀ k, 2 ≤ k → k ≤ n → lookOn env movieId (pageUrl cached k) = .ok (none, true)) ∧
        (1 ≤ n → lookOn env movieId (pageUrl cached (n + 1)) = .ok (none, true) →
          8 ≤ n + 1) ∧
        (locateItem env movieId st).1 = Except.map Prod.fst
          (lookOn env movieId (if n = 0 then cached else pageUrl cached (n + 1))) ∧
        (locateItem env movieId st).2.catalogUrlMap = st.catalogUrlMap ∧
        (locateItem env movieId st).2.movieMetadataMap = st.movieMetadataMap ∧
        (locateItem env movieId st).2.fetched =
          st.fetched ++ cached :: (List.range' 2 n).map (pageUrl cached) ∧
        (locateItem env movieId (locateItem env movieId st).2).1 =
          (locateItem env movieId st).1 ∧
        (locateItem env movieId (locateItem env movieId st).2).2.fetched =
          (locateItem env movieId st).2.fetched ++
            cached :: (List.range' 2 n).map (pageUrl cached) := by
  have hcat := findCatalogUrl_hit env movieId st cached h hc
  obtain ⟨n, hn1, hn2, hn3, hrun⟩ := findMovieElement_run env cached movieId
  have h1 : locateItem env movieId st =
      (Except.map Prod.fst
          (lookOn env movieId (if n = 0 then cached else pageUrl cached (n + 1))),
        appendFetched st (cached :: (List.range' 2 n).map (pageUrl cached))) := by
    unfold locateItem
    rw [hcat]
    exact hrun st
  have hcat2 := findCatalogUrl_hit env movieId
    (appendFetched st (cached :: (List.range' 2 n).map (pageUrl cached))) cached h hc
  have h2 : locateItem env movieId
      (appendFetched st (cached :: (List.range' 2 n).map (pageUrl cached))) =
      (Except.map Prod.fst
          (lookOn env movieId (if n = 0 then cached else pageUrl cached (n + 1))),
        appendFetched (appendFetched st (cached :: (List.range' 2 n).map (pageUrl cached)))
          (cached :: (List.range' 2 n).map (pageUrl cached))) := by
    unfold locateItem
    rw [hcat2]
    exact hrun _
  refine ⟨hcat, n, hn1, hn2, hn3, ?_⟩
  rw [h1]
  simp only []
  rw [h2]
  exact ⟨trivial, rfl, rfl, rfl, rfl, rfl⟩

/-- The cache hit at work: item `103` is cached and shown on the second listing page; each
run of the locate phase requests the catalog page and page 2, and returns the entry. -/
theorem locateItem_cache_hit_witness :
    (locateItem twoPageEnv "103".toList warmStateC).1 =
        .ok (some (some "/movies/103/chalbaaz.html".toList)) ∧
      (locateItem twoPageEnv "103".toList warmStateC).2.catalogUrlMap =
        warmStateC.catalogUrlMap ∧
      (locateItem twoPageEnv "103".toList warmStateC).2.fetched =
        ["https://bhojpuriraas.net/movies/1.html".toList,
         "https://bhojpuriraas.net/movies/2.html".toList] ∧
      (locateItem twoPageEnv "103".toList
          (locateItem twoPageEnv "103".toList warmStateC).2).1 =
        .ok (some (some "/movies/103/chalbaaz.html".toList)) ∧
      (locateItem twoPageEnv "103".toList
          (locateItem twoPageEnv "103".toList warmStateC).2).2.fetched =
        ["https://bhojpuriraas.net/movies/1.html".toList,
         "https://bhojpuriraas.net/movies/2.html".toList,
         "https://bhojpuriraas.net/movies/1.html".toList,
         "https://bhojpuriraas.net/movies/2.html".toList] := by
  obtain ⟨_, n, hn1, hn2, _, hres, hcache, _, hlog, hres2, hlog2⟩ :=
    locateItem_cache_hit twoPageEnv "103".toList warmStateC listingUrl rfl (by decide)
  have hfirst : lookOn twoPageEnv "103".toList listingUrl = .ok (none, true) := rfl
  have hsecond : lookOn twoPageEnv "103".toList (pageUrl listingUrl 2) =
      .ok (some (some "/movies/103/chalbaaz.html".toList), false) := rfl
  have hge : 1 ≤ n := hn1.2 ⟨true, hfirst⟩
  have hle : n ≤ 1 := by
    by_contra hc
    have h2 := hn2 2 (le_refl 2) (by omega)
    rw [hsecond] at h2
    cases h2
  have hn : n = 1 := by omega
  subst hn
  rw [hres2, hlog2, hlog, hres]
  refine ⟨?_, hcache, ?_, ?_, ?_⟩
  · simp only [Nat.succ_ne_zero, if_false, hsecond]
    rfl
  · decide
  · simp only [Nat.succ_ne_zero, if_false, hsecond]
    rfl
  · decide

/-! ## `scrapeMovieStream`: resolving the qualities -/

/-- C1 fails on the code: of three qualities that all lead to a media file, the download page
of the second cannot be fetched, and `scrapeMovieStream` returns `null` instead of the first
and third, without ever requesting the download page of the third; when instead the `HEAD`
request of the second fails, the first and third are returned; with no failure all three
are. -/
theorem scrapeMovieStream_drops_all_qualities :
    (scrapeMovieStream (streamEnv "https://bhojpuriraas.net/dl/101/720.html".toList [])
        "101".toList warmState).1 = none ∧
      (scrapeMovieStream (streamEnv "https://bhojpuriraas.net/dl/101/720.html".toList [])
        "101".toList warmState).2.fetched =
        ["https://bhojpuriraas.net/movies/1.html".toList,
         "https://bhojpuriraas.net/movies/fl/101/1.html".toList,
         "https://bhojpuriraas.net/dl/101/480.html".toList,
         "https://bhojpuriraas.net/dl/101/720.html".toList] ∧
      (scrapeMovieStream (streamEnv [] "https://bhojpuriraas.net/go/720".toList)
        "101".toList warmState).1 =
        some [mkStream "https://cdn.example.org/raja-480.mp4".toList "480p".toList,
          mkStream "https://cdn.example.org/raja-1080.mp4".toList "1080p".toList] ∧
      (scrapeMovieStream (streamEnv [] []) "101".toList warmState).1 =
        some [mkStream "https://cdn.example.org/raja-480.mp4".toList "480p".toList,
          mkStream "https://cdn.example.org/raja-720.mp4".toList "720p".toList,
          mkStream "https://cdn.example.org/raja-1080.mp4".toList "1080p".toList] := by
  decide

end Bhojpuri
